import Mathlib

/-!
# Verification of the sheet-up consistency/reconciliation and mutation/history core

Shallow embedding of the TypeScript sources:
* `src/types/schema.ts` — document model (workspace index, book, sheet, cell),
* `src/components/SheetGrid.tsx` — bijective base-26 column-label codec,
* `src/state/workspaceStore.ts` — mutation & history store,
* `src/lib/workspace/integrity.ts` — reconciliation engine
  (`detectIntegrityIssues`, `applyIntegrityRepairs`, `normalizeBookOrders`).

Modelling conventions:
* JavaScript numbers are modelled by `JsNum`: an integer payload for finite
  values plus `nan` / `posInf` / `negInf`.  The claims under study only involve
  integral finite values; fractional payloads never matter to them.
* JavaScript objects (`Record<string, T>`) are modelled as association lists
  in insertion order, with update-in-place / append-on-new-key semantics.
* `structuredClone` (a value-faithful deep copy) is the identity on values.
* `new Date().toISOString()` is passed in as an explicit `now : String`.
* `Number(...)` parsing is kept abstract as a parameter
  `parseNum : String → Option Int` (`none` models `NaN`); the statements
  proved hold for every such parser.
* `String.prototype.toUpperCase` is modelled character-wise on ASCII
  (`jsToUpperChar`); multi-character Unicode expansions are out of scope.
-/

/-- A JavaScript `number` restricted to the values the claims exercise:
finite values carry an integer, plus the three non-finite values. -/
inductive JsNum where
  | finite (v : Int)
  | nan
  | posInf
  | negInf
deriving DecidableEq, Repr

/-- JS strict equality `===` on numbers: `NaN !== NaN`; finite values compare
by value.  (`0` vs `-0` does not arise in the integer model.) -/
def JsNum.strictEq : JsNum → JsNum → Bool
  | .finite a, .finite b => a = b
  | .posInf, .posInf => true
  | .negInf, .negInf => true
  | _, _ => false

/-- `Number.isFinite`. -/
def JsNum.isFinite : JsNum → Bool
  | .finite _ => true
  | _ => false

/-- Sign test `a - b < 0` as JS evaluates it inside the book-order comparator:
any subtraction producing `NaN` (a `NaN` operand, or `∞ - ∞` with equal signs)
counts as not-negative, because `SortCompare` coerces `NaN` to `+0`. -/
def JsNum.subLtZero : JsNum → JsNum → Bool
  | .finite a, .finite b => a < b
  | .finite _, .posInf => true
  | .finite _, .negInf => false
  | .posInf, .finite _ => false
  | .negInf, .finite _ => true
  | .negInf, .posInf => true
  | _, _ => false

/-- String form used in the detect loop's `(folderId, order)` map key:
`Number.isFinite(order) ? order : 'NaN'` rendered into the template string. -/
def JsNum.keyPart : JsNum → String
  | .finite v => toString v
  | _ => "NaN"

/-! ## Document model (`src/types/schema.ts`)

Optional metadata-only fields that no claim touches (`metadata`, sheet
`settings`, workspace `theme`/`sidebarWidth`) are carried where the code reads
them and omitted otherwise; each omission is noted on the structure. -/

/-- `WorkspaceSettings` (`theme` and `sidebarWidth` omitted: never read by the
store or the engine beyond being spread through unchanged). -/
structure WorkspaceSettings where
  recentBookIds : Option (List String)
  recentSheetIds : Option (List String)
deriving DecidableEq, Repr

/-- `WorkspaceMeta`. -/
structure WorkspaceMeta where
  id : String
  name : String
  createdAt : String
  updatedAt : Option String
  settings : Option WorkspaceSettings
deriving DecidableEq, Repr

/-- `FolderMeta` (`metadata` omitted). -/
structure FolderMeta where
  id : String
  name : String
  parentId : Option String
  order : JsNum
deriving DecidableEq, Repr

/-- `BookReference` (`metadata` omitted). -/
structure BookReference where
  id : String
  name : String
  folderId : Option String
  order : JsNum
  dataPath : String
  thumbPath : Option String
  activeSheetId : Option String
  createdAt : String
  updatedAt : String
deriving DecidableEq, Repr

/-- `WorkspaceFile`. -/
structure WorkspaceFile where
  schemaVersion : String
  workspace : WorkspaceMeta
  folders : List FolderMeta
  books : List BookReference
deriving DecidableEq, Repr

/-- `CellType` tag union. -/
inductive CellType where
  | string
  | number
  | boolean
  | date
  | formula
  | empty
deriving DecidableEq, Repr

/-- A cell's `value : string | number | boolean | null`. -/
inductive CellValue where
  | str (s : String)
  | num (n : Int)
  | bool (b : Bool)
  | null
deriving DecidableEq, Repr

/-- `CellData` (`metadata` omitted). -/
structure CellData where
  value : CellValue
  type : CellType
  format : Option String
  formula : Option String
  comment : Option String
deriving DecidableEq, Repr

/-- `RowData = Record<string, CellData>`: association list in key insertion
order. -/
def RowData := List (String × CellData)
deriving DecidableEq, Repr

/-- `GridSize`. -/
structure GridSize where
  rows : Int
  cols : Int
deriving DecidableEq, Repr

/-- `SheetData` (`settings` omitted: only spread through unchanged by the code
under study). -/
structure SheetData where
  id : String
  name : String
  gridSize : GridSize
  rows : List (String × RowData)
deriving DecidableEq, Repr

/-- `BookProperties`. -/
structure BookProperties where
  defaultFormat : Option String
  locked : Option Bool
deriving DecidableEq, Repr

/-- `BookMeta`. -/
structure BookMeta where
  id : String
  name : String
  createdAt : String
  updatedAt : Option String
  properties : Option BookProperties
deriving DecidableEq, Repr

/-- `BookFile`. -/
structure BookFile where
  schemaVersion : String
  book : BookMeta
  sheets : List SheetData
deriving DecidableEq, Repr

/-- `LoadedFile<T>` from `types/workspaceSnapshot.ts`. -/
structure LoadedFile (α : Type) where
  filePath : String
  data : α
deriving DecidableEq, Repr

/-- `WorkspaceSnapshot`: the in-memory aggregate. -/
structure WorkspaceSnapshot where
  workspace : LoadedFile WorkspaceFile
  books : List (LoadedFile BookFile)
deriving DecidableEq, Repr

/-! ## JS object helpers (association lists with JS `Record` semantics) -/

/-- Property read `o[k]`. -/
def objGet {α : Type} (o : List (String × α)) (k : String) : Option α :=
  (o.find? (fun p => p.1 = k)).map (fun p => p.2)

/-- Property write `o[k] = v`: overwrite in place, or append a new key. -/
def objSet {α : Type} (o : List (String × α)) (k : String) (v : α) :
    List (String × α) :=
  if (o.find? (fun p => p.1 = k)).isSome then
    o.map (fun p => if p.1 = k then (k, v) else p)
  else
    o ++ [(k, v)]

/-- Property delete `delete o[k]`. -/
def objDelete {α : Type} (o : List (String × α)) (k : String) :
    List (String × α) :=
  o.filter (fun p => ¬ p.1 = k)

/-! ## Grid addressing (`src/components/SheetGrid.tsx`) -/

/-- Character-wise model of `String.prototype.toUpperCase` on the ASCII
range: `a`–`z` map to `A`–`Z`, everything else is unchanged. -/
def jsToUpperChar (c : Char) : Char :=
  if 'a' ≤ c ∧ c ≤ 'z' then Char.ofNat (c.toNat - 32) else c

/-- `toColumnLabel`, as a list of characters.  The source's
`while (idx >= 0) { label = chr(idx % 26 + 65) + label; idx = ⌊idx/26⌋ - 1 }`
prepends one digit per iteration; the equivalent recursion appends the last
digit after converting the quotient. -/
def toColAux (n : Nat) : List Char :=
  let c := Char.ofNat (n % 26 + 65)
  if _h : n < 26 then [c]
  else toColAux (n / 26 - 1) ++ [c]
decreasing_by
  have h26 : 26 ≤ n := Nat.le_of_not_lt _h
  have h1 : 1 ≤ n / 26 := (Nat.one_le_div_iff (by norm_num)).mpr h26
  calc n / 26 - 1 < n / 26 := Nat.sub_lt (Nat.lt_of_lt_of_le Nat.zero_lt_one h1) Nat.one_pos
    _ ≤ n := Nat.div_le_self n 26

/-- `toColumnLabel : number → string` (bijective base-26). -/
def toColumnLabel (n : Nat) : String :=
  String.mk (toColAux n)

/-- The digit-accumulation loop of `fromColumnLabel`:
`result = result * 26 + (code + 1)` over the uppercased characters, `none` on
the first character outside `A`–`Z`. -/
def fromColAux : List Char → Nat → Option Nat
  | [], acc => some acc
  | c :: rest, acc =>
      let u := jsToUpperChar c
      if 'A' ≤ u ∧ u ≤ 'Z' then fromColAux rest (acc * 26 + (u.toNat - 65 + 1))
      else none

/-- `fromColumnLabel : string → number | null`. -/
def fromColumnLabel (s : String) : Option Nat :=
  if s = "" then none
  else (fromColAux s.data 0).map (fun r => r - 1)

/-! ### Lemmas about the column-label codec -/

theorem char_le_iff_toNat_le (c d : Char) : c ≤ d ↔ c.toNat ≤ d.toNat :=
  ⟨fun h => h, fun h => h⟩

theorem le_A_iff (c : Char) : 'A' ≤ c ↔ 65 ≤ c.toNat := by
  rw [char_le_iff_toNat_le]
  simp only [show ('A').toNat = 65 from rfl]

theorem le_Z_iff (c : Char) : c ≤ 'Z' ↔ c.toNat ≤ 90 := by
  rw [char_le_iff_toNat_le]
  simp only [show ('Z').toNat = 90 from rfl]

theorem charOfNat_toNat {n : Nat} (h2 : n ≤ 90) : (Char.ofNat n).toNat = n := by
  unfold Char.ofNat
  split
  · rfl
  · rename_i h
    exact absurd (Or.inl (by omega)) h

theorem jsToUpperChar_of_upper {c : Char} (h1 : 65 ≤ c.toNat) (h2 : c.toNat ≤ 90) :
    jsToUpperChar c = c := by
  unfold jsToUpperChar
  rw [if_neg]
  intro hc
  have := (char_le_iff_toNat_le 'a' c).mp hc.1
  simp only [show ('a').toNat = 97 from rfl] at this
  omega

theorem jsToUpperChar_toNat_upper {c : Char} (h1 : 97 ≤ c.toNat) (h2 : c.toNat ≤ 122) :
    (jsToUpperChar c).toNat = c.toNat - 32 := by
  unfold jsToUpperChar
  rw [if_pos]
  · exact charOfNat_toNat (by omega)
  · exact ⟨(char_le_iff_toNat_le 'a' c).mpr h1, (char_le_iff_toNat_le c 'z').mpr h2⟩

theorem jsToUpperChar_idem (c : Char) :
    jsToUpperChar (jsToUpperChar c) = jsToUpperChar c := by
  by_cases h : 97 ≤ c.toNat ∧ c.toNat ≤ 122
  · have ht := jsToUpperChar_toNat_upper h.1 h.2
    exact jsToUpperChar_of_upper (by omega) (by omega)
  · have hc : jsToUpperChar c = c := by
      unfold jsToUpperChar
      rw [if_neg]
      intro hcontra
      exact h ⟨(char_le_iff_toNat_le 'a' c).mp hcontra.1,
        (char_le_iff_toNat_le c 'z').mp hcontra.2⟩
    rw [hc, hc]

theorem toColAux_ne_nil (n : Nat) : toColAux n ≠ [] := by
  unfold toColAux
  split
  · simp
  · simp

theorem toColAux_chars (n : Nat) : ∀ c ∈ toColAux n, 65 ≤ c.toNat ∧ c.toNat ≤ 90 := by
  induction n using toColAux.induct with
  | case1 n _h =>
    intro c hc
    unfold toColAux at hc
    rw [dif_pos _h] at hc
    simp only [List.mem_singleton] at hc
    subst hc
    have : n % 26 < 26 := Nat.mod_lt _ (by norm_num)
    rw [charOfNat_toNat (by omega)]
    omega
  | case2 n _h ih =>
    intro c hc
    unfold toColAux at hc
    rw [dif_neg _h] at hc
    simp only [List.mem_append, List.mem_singleton] at hc
    rcases hc with hc | hc
    · exact ih c hc
    · subst hc
      have : n % 26 < 26 := Nat.mod_lt _ (by norm_num)
      rw [charOfNat_toNat (by omega)]
      omega

theorem fromColAux_append (l1 l2 : List Char) (acc : Nat) :
    fromColAux (l1 ++ l2) acc = (fromColAux l1 acc).bind (fun m => fromColAux l2 m) := by
  induction l1 generalizing acc with
  | nil => simp [fromColAux]
  | cons c rest ih =>
    simp only [List.cons_append, fromColAux]
    split
    · exact ih _
    · rfl

theorem fromColAux_single_digit {c : Char} (h1 : 65 ≤ c.toNat) (h2 : c.toNat ≤ 90)
    (acc : Nat) : fromColAux [c] acc = some (acc * 26 + (c.toNat - 65 + 1)) := by
  simp only [fromColAux]
  rw [jsToUpperChar_of_upper h1 h2]
  rw [if_pos ⟨(le_A_iff c).mpr h1, (le_Z_iff c).mpr h2⟩]

theorem fromColAux_toColAux (n : Nat) :
    ∀ acc : Nat,
      fromColAux (toColAux n) acc = some (acc * 26 ^ (toColAux n).length + (n + 1)) := by
  induction n using toColAux.induct with
  | case1 n _h =>
    intro acc
    unfold toColAux
    rw [dif_pos _h]
    have hmod : n % 26 = n := Nat.mod_eq_of_lt _h
    have htn : (Char.ofNat (n % 26 + 65)).toNat = n % 26 + 65 :=
      charOfNat_toNat (by omega)
    rw [fromColAux_single_digit (by rw [htn]; omega) (by rw [htn]; omega), htn, hmod]
    simp only [List.length_singleton, pow_one, Option.some.injEq]
    omega
  | case2 n _h ih =>
    intro acc
    have hstep : toColAux n = toColAux (n / 26 - 1) ++ [Char.ofNat (n % 26 + 65)] := by
      conv_lhs => unfold toColAux
      rw [dif_neg _h]
    have hlt : n % 26 < 26 := Nat.mod_lt _ (by norm_num)
    have htn : (Char.ofNat (n % 26 + 65)).toNat = n % 26 + 65 :=
      charOfNat_toNat (by omega)
    rw [hstep, fromColAux_append, ih acc, Option.some_bind,
      fromColAux_single_digit (by rw [htn]; omega) (by rw [htn]; omega), htn]
    have hdiv : 1 ≤ n / 26 := (Nat.one_le_div_iff (by norm_num)).mpr (Nat.le_of_not_lt _h)
    congr 1
    rw [List.length_append, List.length_singleton, pow_succ, ← Nat.mul_assoc]
    have h1 : n / 26 - 1 + 1 = n / 26 := by omega
    rw [Nat.add_mul, h1]
    omega

theorem string_mk_eq_empty_iff (cs : List Char) : (String.mk cs = "") ↔ cs = [] := by
  rw [show ("" : String) = String.mk [] from rfl]
  exact ⟨fun h => by injection h, fun h => by rw [h]⟩

/-- **C6** — the column-label codec is bijective base-26: decoding is a left
inverse of encoding for every non-negative index, the label sequence starts
`A, B, …, Z, AA, AB, …`, and every digit of every label lies in `A`–`Z`
(no zero digit). -/
theorem toColumnLabel_fromColumnLabel_bijective :
    (∀ n : Nat, fromColumnLabel (toColumnLabel n) = some n) ∧
    toColumnLabel 0 = "A" ∧ toColumnLabel 1 = "B" ∧ toColumnLabel 25 = "Z" ∧
    toColumnLabel 26 = "AA" ∧ toColumnLabel 27 = "AB" ∧
    (∀ n : Nat, ∀ c ∈ (toColumnLabel n).data, 'A' ≤ c ∧ c ≤ 'Z') := by
  have e0 : toColAux 0 = ['A'] := by
    rw [toColAux.eq_def]; norm_num
  have e1 : toColAux 1 = ['B'] := by
    rw [toColAux.eq_def]; norm_num
  have e25 : toColAux 25 = ['Z'] := by
    rw [toColAux.eq_def]; norm_num
  have e26 : toColAux 26 = toColAux 0 ++ [Char.ofNat (26 % 26 + 65)] := by
    rw [toColAux.eq_def]; norm_num
  have e27 : toColAux 27 = toColAux 0 ++ [Char.ofNat (27 % 26 + 65)] := by
    rw [toColAux.eq_def]; norm_num
  have e26' : Char.ofNat (26 % 26 + 65) = 'A' := by norm_num
  have e27' : Char.ofNat (27 % 26 + 65) = 'B' := by norm_num
  refine ⟨?_,
    by simp only [toColumnLabel, e0],
    by simp only [toColumnLabel, e1],
    by simp only [toColumnLabel, e25],
    by simp only [toColumnLabel, e26, e0, e26']; rfl,
    by simp only [toColumnLabel, e27, e0, e27']; rfl, ?_⟩
  · intro n
    unfold fromColumnLabel toColumnLabel
    rw [if_neg (by
      intro hempty
      exact toColAux_ne_nil n ((string_mk_eq_empty_iff _).mp hempty))]
    show (fromColAux (toColAux n) 0).map (fun r => r - 1) = some n
    rw [fromColAux_toColAux n 0]
    simp
  · intro n c hc
    have h := toColAux_chars n c hc
    exact ⟨(char_le_iff_toNat_le 'A' c).mpr (by exact h.1),
      (char_le_iff_toNat_le c 'Z').mpr (by exact h.2)⟩

theorem fromColAux_none_iff (cs : List Char) :
    ∀ acc : Nat,
      fromColAux cs acc = none ↔
        ∃ c ∈ cs, ¬('A' ≤ jsToUpperChar c ∧ jsToUpperChar c ≤ 'Z') := by
  induction cs with
  | nil => intro acc; simp [fromColAux]
  | cons c rest ih =>
    intro acc
    simp only [fromColAux]
    split
    · rename_i hin
      rw [ih]
      constructor
      · rintro ⟨d, hd, hbad⟩
        exact ⟨d, List.mem_cons_of_mem c hd, hbad⟩
      · rintro ⟨d, hd, hbad⟩
        rcases List.mem_cons.mp hd with rfl | hd
        · exact absurd hin hbad
        · exact ⟨d, hd, hbad⟩
    · rename_i hout
      simp only [true_iff]
      exact ⟨c, List.mem_cons_self c rest, hout⟩

theorem fromColAux_map_upper (cs : List Char) :
    ∀ acc : Nat, fromColAux (cs.map jsToUpperChar) acc = fromColAux cs acc := by
  induction cs with
  | nil => intro acc; rfl
  | cons c rest ih =>
    intro acc
    simp only [List.map_cons, fromColAux, jsToUpperChar_idem]
    split
    · exact ih _
    · rfl

/-- **C10** — `fromColumnLabel` is total and signals invalid input via `null`:
it returns `null` exactly when the label is empty or some character, after
uppercasing, falls outside `A`–`Z`; uppercasing the label first does not change
the result, so lowercase labels decode to the same index. -/
theorem fromColumnLabel_null_iff_invalid :
    ∀ s : String,
      (fromColumnLabel s = none ↔
        (s = "" ∨ ∃ c ∈ s.data, ¬('A' ≤ jsToUpperChar c ∧ jsToUpperChar c ≤ 'Z'))) ∧
      fromColumnLabel (String.mk (s.data.map jsToUpperChar)) = fromColumnLabel s := by
  intro s
  constructor
  · unfold fromColumnLabel
    split
    · rename_i hs; simp [hs]
    · rename_i hs
      simp only [Option.map_eq_none', hs, false_or]
      exact fromColAux_none_iff s.data 0
  · unfold fromColumnLabel
    have hdata : (String.mk (s.data.map jsToUpperChar)).data = s.data.map jsToUpperChar := rfl
    by_cases hs : s = ""
    · subst hs
      rfl
    · rw [if_neg hs, if_neg (by
        intro hempty
        have := (string_mk_eq_empty_iff _).mp hempty
        simp only [List.map_eq_nil_iff] at this
        exact hs (String.ext this))]
      rw [hdata, fromColAux_map_upper]

/-! ## Mutation & History Store (`src/state/workspaceStore.ts`) -/

/-- `MAX_HISTORY_ENTRIES`. -/
def MAX_HISTORY_ENTRIES : Nat := 100

/-- One pending cell edit handed to `applyCellUpdates`. -/
structure CellUpdate where
  rowKey : String
  columnKey : String
  value : String
deriving DecidableEq, Repr

/-- `HistoryEntry`. -/
structure HistoryEntry where
  snapshot : WorkspaceSnapshot
  selectedBookId : Option String
  selectedSheetId : Option String
deriving DecidableEq, Repr

/-- The store's mutable session state (`busyState` / `autoSaveEnabled`, two
UI-only flags no claim touches, are omitted). -/
structure StoreState where
  snapshot : Option WorkspaceSnapshot
  selectedBookId : Option String
  selectedSheetId : Option String
  history : List HistoryEntry
  future : List HistoryEntry
deriving DecidableEq, Repr

/-- `cloneSnapshot` (`structuredClone` / JSON round-trip): a value-faithful
deep copy, which on immutable values is the identity. -/
def cloneSnapshot (s : WorkspaceSnapshot) : WorkspaceSnapshot := s

/-- JS truthiness of an optional string (`undefined`, `null` and `""` are
falsy). -/
def strTruthy : Option String → Bool
  | none => false
  | some s => ¬ s = ""

/-- Character-wise model of `String.prototype.trim`: drop whitespace from
both ends. -/
def jsTrim (s : String) : String :=
  String.mk (((s.data.dropWhile Char.isWhitespace).reverse.dropWhile
    Char.isWhitespace).reverse)

/-- Replace the first element satisfying `p` (the source locates it with
`findIndex` and replaces by index in a `map`). -/
def replaceFirstBy {α : Type} (p : α → Bool) (f : α → α) : List α → List α
  | [] => []
  | x :: xs => if p x then f x :: xs else x :: replaceFirstBy p f xs

/-- The `history` push of `recordSnapshotForUndo`:
`history.length >= MAX ? [...history.slice(history.length - MAX + 1), entry]
                       : [...history, entry]`. -/
def pushHistory (history : List HistoryEntry) (entry : HistoryEntry) :
    List HistoryEntry :=
  if history.length ≥ MAX_HISTORY_ENTRIES then
    history.drop (history.length - MAX_HISTORY_ENTRIES + 1) ++ [entry]
  else
    history ++ [entry]

/-- `recordSnapshotForUndo`: push a clone of the current snapshot (plus the
current selection) onto `history`, clear `future`; no-op without a
snapshot. -/
def recordSnapshotForUndo (st : StoreState) : StoreState :=
  match st.snapshot with
  | none => st
  | some snap =>
      { st with
        history := pushHistory st.history
          ⟨cloneSnapshot snap, st.selectedBookId, st.selectedSheetId⟩,
        future := [] }

/-- Default empty `WorkspaceSettings` (the `?? {}` fallback). -/
def emptySettings : WorkspaceSettings := ⟨none, none⟩

/-- The per-update body of the `updates.forEach` loop in `applyCellUpdates`:
threads `(nextRows, hasEffectiveChange)`.  All change detection reads the
pre-batch `currentRows`. -/
def applyOneCellUpdate (parseNum : String → Option Int)
    (currentRows : List (String × RowData))
    (acc : List (String × RowData) × Bool) (u : CellUpdate) :
    List (String × RowData) × Bool :=
  let currentRowData : RowData := (objGet currentRows u.rowKey).getD []
  let currentCell : Option CellData := objGet currentRowData u.columnKey
  let nextRowData0 : RowData := (objGet acc.1 u.rowKey).getD []
  let trimmed := jsTrim u.value
  let step : RowData × Bool :=
    if trimmed = "" then
      (objDelete nextRowData0 u.columnKey, acc.2 || currentCell.isSome)
    else
      match parseNum trimmed with
      | some numeric =>
          (objSet nextRowData0 u.columnKey
              ⟨CellValue.num numeric, CellType.number, none, none, none⟩,
            acc.2 || !(match currentCell with
              | some c => decide (c.type = CellType.number ∧ c.value = CellValue.num numeric)
              | none => false))
      | none =>
          (objSet nextRowData0 u.columnKey
              ⟨CellValue.str u.value, CellType.string, none, none, none⟩,
            acc.2 || !(match currentCell with
              | some c => decide (c.type = CellType.string ∧ c.value = CellValue.str u.value)
              | none => false))
  if step.1.length = 0 then (objDelete acc.1 u.rowKey, step.2)
  else (objSet acc.1 u.rowKey step.1, step.2)

/-- `applyCellUpdates(updates)`.  Returns the JS `WorkspaceSnapshot | null`
result together with the store state after the call.  `new Date()` is the
explicit `now`; `Number(...)` is the abstract `parseNum`. -/
def applyCellUpdates (now : String) (parseNum : String → Option Int)
    (st : StoreState) (updates : List CellUpdate) :
    Option WorkspaceSnapshot × StoreState :=
  if updates.length = 0 then (none, st)
  else
    match st.snapshot, st.selectedBookId, st.selectedSheetId with
    | some snapshot, some selectedBookId, some selectedSheetId =>
      if selectedBookId = "" then (none, st)
      else if selectedSheetId = "" then (none, st)
      else
        match snapshot.books.find? (fun e => e.data.book.id = selectedBookId) with
        | none => (none, st)
        | some bookEntry =>
          match bookEntry.data.sheets.find? (fun sh => sh.id = selectedSheetId) with
          | none => (none, st)
          | some targetSheet =>
            let currentRows := targetSheet.rows
            let folded :=
              updates.foldl (applyOneCellUpdate parseNum currentRows) (currentRows, false)
            if !folded.2 then (none, st)
            else
              let st1 := recordSnapshotForUndo st
              let nextSheets := replaceFirstBy (fun sh => sh.id = selectedSheetId)
                (fun sh => { sh with rows := folded.1 }) bookEntry.data.sheets
              let previousSettings :=
                (snapshot.workspace.data.workspace.settings).getD emptySettings
              let updatedRecentBookIds :=
                (selectedBookId :: ((previousSettings.recentBookIds.getD []).filter
                  (fun id => ¬ id = selectedBookId))).take 20
              let updatedRecentSheetIds :=
                (selectedSheetId :: ((previousSettings.recentSheetIds.getD []).filter
                  (fun id => ¬ id = selectedSheetId))).take 20
              let updatedWorkspaceBooks := snapshot.workspace.data.books.map
                (fun ref => if ref.id = selectedBookId then
                  { ref with activeSheetId := some selectedSheetId, updatedAt := now }
                 else ref)
              let workspaceData :=
                { snapshot.workspace.data with
                  workspace := { snapshot.workspace.data.workspace with
                    updatedAt := some now,
                    settings := some { previousSettings with
                      recentBookIds := some updatedRecentBookIds,
                      recentSheetIds := some updatedRecentSheetIds } },
                  books := updatedWorkspaceBooks }
              let nextSnapshot : WorkspaceSnapshot :=
                { workspace := { snapshot.workspace with data := workspaceData },
                  books := replaceFirstBy (fun e => e.data.book.id = selectedBookId)
                    (fun e => { e with data := { e.data with sheets := nextSheets } })
                    snapshot.books }
              (some nextSnapshot, { st1 with snapshot := some nextSnapshot })
    | _, _, _ => (none, st)

/-- `renameBook(bookId, nextName)`. -/
def renameBook (now : String) (st : StoreState) (bookId nextName : String) :
    Option WorkspaceSnapshot × StoreState :=
  let trimmed := jsTrim nextName
  if trimmed = "" then (none, st)
  else
    match st.snapshot with
    | none => (none, st)
    | some snapshot =>
      match snapshot.books.find? (fun e => e.data.book.id = bookId) with
      | none => (none, st)
      | some bookEntry =>
        if bookEntry.data.book.name = trimmed then (none, st)
        else
          let st1 := recordSnapshotForUndo st
          let updatedBooks := replaceFirstBy (fun e => e.data.book.id = bookId)
            (fun e => { e with data := { e.data with
              book := { e.data.book with name := trimmed, updatedAt := some now } } })
            snapshot.books
          let updatedWorkspaceBooks := snapshot.workspace.data.books.map
            (fun ref => if ref.id = bookId then { ref with updatedAt := now } else ref)
          let workspaceData :=
            { snapshot.workspace.data with
              workspace := { snapshot.workspace.data.workspace with updatedAt := some now },
              books := updatedWorkspaceBooks }
          let nextSnapshot : WorkspaceSnapshot :=
            { workspace := { snapshot.workspace with data := workspaceData },
              books := updatedBooks }
          (some nextSnapshot, { st1 with snapshot := some nextSnapshot })

/-- The `" (n)"` collision-avoidance loop shared by the factories: try
`base (counter)`, `base (counter+1)`, … until a free name is found.  The JS
`while` always terminates because `existing` is finite; the recursion carries
the explicit bound `fuel = existing.length + 1`, which pigeonhole-wise is
never exhausted. -/
def freeNameFrom (base : String) (existing : List String) :
    Nat → Nat → String
  | 0, counter => base ++ " (" ++ toString counter ++ ")"
  | fuel + 1, counter =>
      let candidate := base ++ " (" ++ toString counter ++ ")"
      if existing.contains candidate then freeNameFrom base existing fuel (counter + 1)
      else candidate

/-- `createDefaultSheetName` from `sheetFactory.ts` (base `新しいシート`). -/
def createDefaultSheetName (book : BookFile) : String :=
  let base := "新しいシート"
  let existing := book.sheets.map (fun sheet => sheet.name)
  if ¬ existing.contains base then base
  else freeNameFrom base existing (existing.length + 1) 2

/-- `buildNewSheetSnapshot` from `sheetFactory.ts`; the generated sheet id is
the explicit `freshSheetId`. -/
def buildNewSheetSnapshot (now freshSheetId : String) (bookFile : BookFile) :
    BookFile × String :=
  let name := createDefaultSheetName bookFile
  let newSheet : SheetData := ⟨freshSheetId, name, ⟨100, 26⟩, []⟩
  ({ bookFile with
      book := { bookFile.book with updatedAt := some now },
      sheets := bookFile.sheets ++ [newSheet] },
    freshSheetId)

/-- `createSheet(bookId)`: throws (`Except.error` with the thrown message)
when no workspace is open or the book id is not found — in both cases before
any state write, so the returned store state is the input state. -/
def createSheet (now freshSheetId : String) (st : StoreState) (bookId : String) :
    Except String (WorkspaceSnapshot × String) × StoreState :=
  match st.snapshot with
  | none => (Except.error "ワークスペースを開いてからシートを追加してください。", st)
  | some snapshot =>
    match snapshot.books.find? (fun e => e.data.book.id = bookId) with
    | none => (Except.error "指定されたブックが見つかりません。", st)
    | some bookEntry =>
      let st1 := recordSnapshotForUndo st
      let built := buildNewSheetSnapshot now freshSheetId bookEntry.data
      let nextBooks := replaceFirstBy (fun e => e.data.book.id = bookId)
        (fun e => { e with data := built.1 }) snapshot.books
      let previousSettings := (snapshot.workspace.data.workspace.settings).getD emptySettings
      let updatedRecentBookIds :=
        (bookId :: ((previousSettings.recentBookIds.getD []).filter
          (fun id => ¬ id = bookId))).take 20
      let updatedRecentSheetIds :=
        (built.2 :: ((previousSettings.recentSheetIds.getD []).filter
          (fun id => ¬ id = built.2))).take 20
      let updatedWorkspaceBooks := snapshot.workspace.data.books.map
        (fun ref => if ref.id = bookId then
          { ref with activeSheetId := some built.2, updatedAt := now }
         else ref)
      let workspaceData :=
        { snapshot.workspace.data with
          workspace := { snapshot.workspace.data.workspace with
            updatedAt := some now,
            settings := some { previousSettings with
              recentBookIds := some updatedRecentBookIds,
              recentSheetIds := some updatedRecentSheetIds } },
          books := updatedWorkspaceBooks }
      let nextSnapshot : WorkspaceSnapshot :=
        { workspace := { snapshot.workspace with data := workspaceData },
          books := nextBooks }
      (Except.ok (nextSnapshot, built.2),
        { st1 with
          snapshot := some nextSnapshot,
          selectedBookId := some bookId,
          selectedSheetId := some built.2 })

/-- `undo()`. -/
def undo (st : StoreState) : Option WorkspaceSnapshot × StoreState :=
  match st.snapshot with
  | none => (none, st)
  | some snapshot =>
    match st.history.getLast? with
    | none => (none, st)
    | some lastEntry =>
      (some lastEntry.snapshot,
        { snapshot := some lastEntry.snapshot,
          selectedBookId := lastEntry.selectedBookId,
          selectedSheetId := lastEntry.selectedSheetId,
          history := st.history.dropLast,
          future := st.future ++
            [⟨cloneSnapshot snapshot, st.selectedBookId, st.selectedSheetId⟩] })

/-- `redo()`. -/
def redo (st : StoreState) : Option WorkspaceSnapshot × StoreState :=
  match st.snapshot with
  | none => (none, st)
  | some snapshot =>
    match st.future.getLast? with
    | none => (none, st)
    | some nextEntry =>
      (some nextEntry.snapshot,
        { snapshot := some nextEntry.snapshot,
          selectedBookId := nextEntry.selectedBookId,
          selectedSheetId := nextEntry.selectedSheetId,
          history := st.history ++
            [⟨cloneSnapshot snapshot, st.selectedBookId, st.selectedSheetId⟩],
          future := st.future.dropLast })

/-- The shared skeleton of one effective mutating operation (§4.2 step 4):
push the pre-mutation snapshot via `recordSnapshotForUndo`, then install the
new snapshot as current. -/
def installSnapshot (st : StoreState) (snap : WorkspaceSnapshot) : StoreState :=
  let st1 := recordSnapshotForUndo st
  { st1 with snapshot := some snap }

/-- A sequence of effective mutating operations installing the given
snapshots one after the other. -/
def installAll (st : StoreState) (snaps : List WorkspaceSnapshot) : StoreState :=
  snaps.foldl installSnapshot st

/-- The entries such a sequence records: the pre-mutation snapshot of each
step (the selection never changes during `installSnapshot`). -/
def entryChain (selB selS : Option String) :
    WorkspaceSnapshot → List WorkspaceSnapshot → List HistoryEntry
  | _, [] => []
  | cur, snap :: rest => ⟨cur, selB, selS⟩ :: entryChain selB selS snap rest

/-! ### History-cap lemmas (C4) -/

/-- The last `MAX_HISTORY_ENTRIES` elements of a list. -/
def lastCap (l : List HistoryEntry) : List HistoryEntry :=
  l.drop (l.length - MAX_HISTORY_ENTRIES)

theorem pushHistory_eq_lastCap (h : List HistoryEntry) (e : HistoryEntry) :
    pushHistory h e = lastCap (h ++ [e]) := by
  unfold pushHistory lastCap
  rw [List.drop_append_eq_append_drop]
  by_cases hc : h.length ≥ MAX_HISTORY_ENTRIES
  · rw [if_pos hc]
    have h1 : h.length + 1 - MAX_HISTORY_ENTRIES = h.length - MAX_HISTORY_ENTRIES + 1 := by
      simp only [MAX_HISTORY_ENTRIES] at *; omega
    have h2 : h.length + 1 - MAX_HISTORY_ENTRIES - h.length = 0 := by
      simp only [MAX_HISTORY_ENTRIES] at *; omega
    have h3 : h.length - MAX_HISTORY_ENTRIES + 1 - h.length = 0 := by
      simp only [MAX_HISTORY_ENTRIES] at *; omega
    simp only [List.length_append, List.length_singleton, h1, h2, h3, List.drop_zero]
  · rw [if_neg hc]
    simp only [List.length_append, List.length_singleton]
    rw [show h.length + 1 - MAX_HISTORY_ENTRIES = 0 from by
      simp only [MAX_HISTORY_ENTRIES] at *; omega]
    simp

theorem pushHistory_length (h : List HistoryEntry) (e : HistoryEntry) :
    (pushHistory h e).length = min (h.length + 1) MAX_HISTORY_ENTRIES := by
  unfold pushHistory
  split
  · simp only [List.length_append, List.length_drop, List.length_singleton]
    simp only [MAX_HISTORY_ENTRIES] at *
    omega
  · simp only [List.length_append, List.length_singleton]
    simp only [MAX_HISTORY_ENTRIES] at *
    omega

theorem pushHistory_getLast (h : List HistoryEntry) (e : HistoryEntry) :
    (pushHistory h e).getLast? = some e := by
  unfold pushHistory
  split <;> rw [List.getLast?_concat]

theorem lastCap_append_lastCap (A B : List HistoryEntry) :
    lastCap (lastCap A ++ B) = lastCap (A ++ B) := by
  unfold lastCap
  rw [List.drop_append_eq_append_drop, List.drop_append_eq_append_drop, List.drop_drop]
  simp only [List.length_append, List.length_drop]
  congr 2 <;> simp only [MAX_HISTORY_ENTRIES] <;> omega

theorem entryChain_length (selB selS : Option String) :
    ∀ (cur : WorkspaceSnapshot) (snaps : List WorkspaceSnapshot),
      (entryChain selB selS cur snaps).length = snaps.length := by
  intro cur snaps
  induction snaps generalizing cur with
  | nil => rfl
  | cons snap rest ih => simp only [entryChain, List.length_cons, ih]

theorem installAll_spec (snaps : List WorkspaceSnapshot) :
    ∀ (st : StoreState) (cur : WorkspaceSnapshot), st.snapshot = some cur →
      st.history.length ≤ MAX_HISTORY_ENTRIES →
      (installAll st snaps).history =
        lastCap (st.history ++ entryChain st.selectedBookId st.selectedSheetId cur snaps) ∧
      (installAll st snaps).selectedBookId = st.selectedBookId ∧
      (installAll st snaps).selectedSheetId = st.selectedSheetId := by
  induction snaps with
  | nil =>
    intro st cur _ hlen
    refine ⟨?_, rfl, rfl⟩
    show st.history = lastCap (st.history ++ [])
    unfold lastCap
    rw [List.append_nil,
      show st.history.length - MAX_HISTORY_ENTRIES = 0 from by omega,
      List.drop_zero]
  | cons snap rest ih =>
    intro st cur hsnap hlen
    have hstep : installAll st (snap :: rest) = installAll (installSnapshot st snap) rest := by
      unfold installAll
      rw [List.foldl_cons]
    have hrec : recordSnapshotForUndo st =
        { st with
          history := pushHistory st.history
            ⟨cloneSnapshot cur, st.selectedBookId, st.selectedSheetId⟩,
          future := [] } := by
      unfold recordSnapshotForUndo
      rw [hsnap]
    have hst1 : installSnapshot st snap =
        { st with
          snapshot := some snap,
          history := pushHistory st.history
            ⟨cloneSnapshot cur, st.selectedBookId, st.selectedSheetId⟩,
          future := [] } := by
      unfold installSnapshot
      rw [hrec]
    have hlen1 : (pushHistory st.history
        ⟨cloneSnapshot cur, st.selectedBookId, st.selectedSheetId⟩).length ≤
        MAX_HISTORY_ENTRIES := by
      rw [pushHistory_length]
      omega
    obtain ⟨h1, h2, h3⟩ := ih (installSnapshot st snap) snap (by rw [hst1]) (by rw [hst1]; exact hlen1)
    rw [hstep, h1, h2, h3, hst1]
    refine ⟨?_, rfl, rfl⟩
    show lastCap (pushHistory st.history _ ++ _) = _
    rw [pushHistory_eq_lastCap, lastCap_append_lastCap, List.append_assoc]
    rfl

/-- **C4** — the history stack never exceeds 100 entries: every effective
mutating operation pushes the pre-mutation snapshot (plus current selection),
clears `future`, and evicts oldest-first at the cap; 150 consecutive mutating
operations starting from an empty history leave exactly 100 entries, the
oldest 50 having been evicted in FIFO order. -/
theorem history_bounded_fifo (st : StoreState) (s0 : WorkspaceSnapshot)
    (snaps : List WorkspaceSnapshot)
    (hsnap : st.snapshot = some s0) (hhist : st.history = [])
    (hlen : snaps.length = 150) :
    (installAll st snaps).history.length = 100 ∧
    (installAll st snaps).history =
      (entryChain st.selectedBookId st.selectedSheetId s0 snaps).drop 50 ∧
    (∀ (st2 : StoreState) (snap2 : WorkspaceSnapshot), st2.snapshot = some snap2 →
      st2.history.length ≤ MAX_HISTORY_ENTRIES →
      (recordSnapshotForUndo st2).history.length ≤ MAX_HISTORY_ENTRIES ∧
      (recordSnapshotForUndo st2).future = [] ∧
      (recordSnapshotForUndo st2).history.getLast? =
        some ⟨snap2, st2.selectedBookId, st2.selectedSheetId⟩) := by
  obtain ⟨h1, _, _⟩ := installAll_spec snaps st s0 hsnap (by rw [hhist]; simp [MAX_HISTORY_ENTRIES])
  have hchain : (entryChain st.selectedBookId st.selectedSheetId s0 snaps).length = 150 := by
    rw [entryChain_length, hlen]
  have hdrop : (installAll st snaps).history =
      (entryChain st.selectedBookId st.selectedSheetId s0 snaps).drop 50 := by
    rw [h1, hhist, List.nil_append]
    unfold lastCap
    rw [hchain]
    rfl
  refine ⟨?_, hdrop, ?_⟩
  · rw [hdrop, List.length_drop, hchain]
  · intro st2 snap2 hsnap2 hlen2
    have hrec2 : recordSnapshotForUndo st2 =
        { st2 with
          history := pushHistory st2.history
            ⟨cloneSnapshot snap2, st2.selectedBookId, st2.selectedSheetId⟩,
          future := [] } := by
      unfold recordSnapshotForUndo
      rw [hsnap2]
    rw [hrec2]
    refine ⟨?_, rfl, ?_⟩
    · show (pushHistory st2.history _).length ≤ _
      rw [pushHistory_length]
      omega
    · exact pushHistory_getLast _ _

/-- Minimal workspace snapshot fixture parameterised by a distinguishing
name. -/
def tinySnapshot (tag : String) : WorkspaceSnapshot :=
  ⟨⟨"/workspace.json", ⟨"1.0.0", ⟨"workspace-001", tag, "2025-01-01", none, none⟩, [], []⟩⟩, []⟩

/-- Store state fixture for the C4 witness: empty history/future. -/
def c4StartState : StoreState :=
  ⟨some (tinySnapshot "start"), some "book-001", some "sheet-001", [], []⟩

/-- 150 distinct snapshots to install. -/
def c4Snaps : List WorkspaceSnapshot :=
  (List.range 150).map (fun i => tinySnapshot (toString i))

/-- Witness for C4: the hypotheses hold at the concrete fixture. -/
theorem history_bounded_fifo_witness :
    (installAll c4StartState c4Snaps).history.length = 100 ∧
    (installAll c4StartState c4Snaps).history =
      (entryChain c4StartState.selectedBookId c4StartState.selectedSheetId
        (tinySnapshot "start") c4Snaps).drop 50 ∧
    (∀ (st2 : StoreState) (snap2 : WorkspaceSnapshot), st2.snapshot = some snap2 →
      st2.history.length ≤ MAX_HISTORY_ENTRIES →
      (recordSnapshotForUndo st2).history.length ≤ MAX_HISTORY_ENTRIES ∧
      (recordSnapshotForUndo st2).future = [] ∧
      (recordSnapshotForUndo st2).history.getLast? =
        some ⟨snap2, st2.selectedBookId, st2.selectedSheetId⟩) :=
  history_bounded_fifo c4StartState (tinySnapshot "start") c4Snaps rfl rfl
    (by simp [c4Snaps])

/-! ### Undo/redo (C5) -/

/-- **C5** — `undo` pops the top history entry, pushes the current snapshot
plus selection onto `future`, and installs the popped snapshot and its
recorded selection; `redo` is the mirror image; each returns `null` and
changes nothing when its stack is empty; and whenever history is non-empty,
`undo` immediately followed by `redo` restores bit-for-bit the snapshot and
selection that were current before the undo. -/
theorem undo_redo_symmetry (st : StoreState) :
    (st.history = [] → undo st = (none, st)) ∧
    (st.future = [] → redo st = (none, st)) ∧
    (∀ (cur : WorkspaceSnapshot) (e : HistoryEntry),
      st.snapshot = some cur → st.history.getLast? = some e →
      undo st = (some e.snapshot,
        { snapshot := some e.snapshot,
          selectedBookId := e.selectedBookId,
          selectedSheetId := e.selectedSheetId,
          history := st.history.dropLast,
          future := st.future ++ [⟨cur, st.selectedBookId, st.selectedSheetId⟩] }) ∧
      (redo (undo st).2).1 = some cur ∧
      (redo (undo st).2).2.snapshot = some cur ∧
      (redo (undo st).2).2.selectedBookId = st.selectedBookId ∧
      (redo (undo st).2).2.selectedSheetId = st.selectedSheetId) ∧
    (∀ (cur : WorkspaceSnapshot) (e : HistoryEntry),
      st.snapshot = some cur → st.future.getLast? = some e →
      redo st = (some e.snapshot,
        { snapshot := some e.snapshot,
          selectedBookId := e.selectedBookId,
          selectedSheetId := e.selectedSheetId,
          history := st.history ++ [⟨cur, st.selectedBookId, st.selectedSheetId⟩],
          future := st.future.dropLast })) := by
  refine ⟨?_, ?_, ?_, ?_⟩
  · intro hh
    unfold undo
    cases hs : st.snapshot with
    | none => rfl
    | some snapshot => rw [hh]; rfl
  · intro hf
    unfold redo
    cases hs : st.snapshot with
    | none => rfl
    | some snapshot => rw [hf]; rfl
  · intro cur e hs hl
    have hundo : undo st = (some e.snapshot,
        { snapshot := some e.snapshot,
          selectedBookId := e.selectedBookId,
          selectedSheetId := e.selectedSheetId,
          history := st.history.dropLast,
          future := st.future ++ [⟨cur, st.selectedBookId, st.selectedSheetId⟩] }) := by
      unfold undo
      rw [hs, hl]
      rfl
    refine ⟨hundo, ?_, ?_, ?_, ?_⟩ <;>
      rw [hundo] <;>
      unfold redo <;>
      simp only [List.getLast?_concat, List.dropLast_concat]
  · intro cur e hs hl
    unfold redo
    rw [hs, hl]
    rfl

/-- Witness for C5's hypothesis-bearing conjuncts at a concrete store. -/
def c5Entry : HistoryEntry :=
  ⟨tinySnapshot "older", some "book-a", some "sheet-a"⟩

/-- Concrete store with one history entry and an empty future. -/
def c5State : StoreState :=
  ⟨some (tinySnapshot "current"), some "book-b", some "sheet-b", [c5Entry], []⟩

theorem undo_redo_symmetry_witness :
    (c5State.history = [] → undo c5State = (none, c5State)) ∧
    (undo c5State = (some c5Entry.snapshot,
      { snapshot := some c5Entry.snapshot,
        selectedBookId := c5Entry.selectedBookId,
        selectedSheetId := c5Entry.selectedSheetId,
        history := c5State.history.dropLast,
        future := c5State.future ++
          [⟨tinySnapshot "current", c5State.selectedBookId, c5State.selectedSheetId⟩] }) ∧
      (redo (undo c5State).2).1 = some (tinySnapshot "current") ∧
      (redo (undo c5State).2).2.snapshot = some (tinySnapshot "current") ∧
      (redo (undo c5State).2).2.selectedBookId = c5State.selectedBookId ∧
      (redo (undo c5State).2).2.selectedSheetId = c5State.selectedSheetId) :=
  ⟨(undo_redo_symmetry c5State).1,
    (undo_redo_symmetry c5State).2.2.1 (tinySnapshot "current") c5Entry rfl rfl⟩

/-! ### Idempotent cell commits (C1) -/

/-- A cell update leaves its target cell's stored `(value, type)` pair
unchanged: the exact negation of the per-update `hasEffectiveChange`
condition of `applyCellUpdates`, read against the pre-batch rows. -/
def cellUpdateUnchanged (parseNum : String → Option Int)
    (currentRows : List (String × RowData)) (u : CellUpdate) : Bool :=
  let currentRowData : RowData := (objGet currentRows u.rowKey).getD []
  let currentCell : Option CellData := objGet currentRowData u.columnKey
  let trimmed := jsTrim u.value
  if trimmed = "" then currentCell.isNone
  else
    match parseNum trimmed with
    | some numeric =>
        match currentCell with
        | some c => decide (c.type = CellType.number ∧ c.value = CellValue.num numeric)
        | none => false
    | none =>
        match currentCell with
        | some c => decide (c.type = CellType.string ∧ c.value = CellValue.str u.value)
        | none => false

theorem applyOneCellUpdate_flag (parseNum : String → Option Int)
    (currentRows : List (String × RowData)) (acc : List (String × RowData) × Bool)
    (u : CellUpdate) :
    (applyOneCellUpdate parseNum currentRows acc u).2 =
      (acc.2 || !(cellUpdateUnchanged parseNum currentRows u)) := by
  unfold applyOneCellUpdate cellUpdateUnchanged
  by_cases ht : jsTrim u.value = ""
  · simp only [ht, if_pos, if_true, reduceIte]
    split <;>
      cases objGet ((objGet currentRows u.rowKey).getD []) u.columnKey <;> rfl
  · simp only [ht, reduceIte]
    cases hp : parseNum (jsTrim u.value) with
    | some numeric =>
      simp only []
      split <;> cases objGet ((objGet currentRows u.rowKey).getD []) u.columnKey <;> rfl
    | none =>
      simp only []
      split <;> cases objGet ((objGet currentRows u.rowKey).getD []) u.columnKey <;> rfl

theorem foldl_unchanged_flag (parseNum : String → Option Int)
    (currentRows : List (String × RowData)) (updates : List CellUpdate) :
    ∀ acc : List (String × RowData) × Bool,
      (∀ u ∈ updates, cellUpdateUnchanged parseNum currentRows u = true) →
      acc.2 = false →
      (updates.foldl (applyOneCellUpdate parseNum currentRows) acc).2 = false := by
  induction updates with
  | nil => intro acc _ hacc; exact hacc
  | cons u rest ih =>
    intro acc hall hacc
    rw [List.foldl_cons]
    apply ih
    · intro v hv
      exact hall v (List.mem_cons_of_mem u hv)
    · rw [applyOneCellUpdate_flag, hacc, hall u (List.mem_cons_self u rest)]
      rfl

/-- **C1** — if every update in the batch would leave its target cell's
stored `(value, type)` pair unchanged, `applyCellUpdates` is a no-op: it
returns the `null` "nothing changed" result, pushes no history entry and
bumps no timestamp (the store state is returned exactly as it was). -/
theorem applyCellUpdates_noop (now : String) (parseNum : String → Option Int)
    (st : StoreState) (snapshot : WorkspaceSnapshot) (bid sid : String)
    (bookEntry : LoadedFile BookFile) (targetSheet : SheetData)
    (updates : List CellUpdate)
    (hsnap : st.snapshot = some snapshot)
    (hbid : st.selectedBookId = some bid) (hbid' : ¬ bid = "")
    (hsid : st.selectedSheetId = some sid) (hsid' : ¬ sid = "")
    (hbook : snapshot.books.find? (fun e => e.data.book.id = bid) = some bookEntry)
    (hsheet : bookEntry.data.sheets.find? (fun sh => sh.id = sid) = some targetSheet)
    (hunch : ∀ u ∈ updates, cellUpdateUnchanged parseNum targetSheet.rows u = true) :
    applyCellUpdates now parseNum st updates = (none, st) := by
  unfold applyCellUpdates
  by_cases hlen : updates.length = 0
  · rw [if_pos hlen]
  · rw [if_neg hlen, hsnap, hbid, hsid]
    simp only [if_neg hbid', if_neg hsid', hbook, hsheet]
    have hflag : (updates.foldl (applyOneCellUpdate parseNum targetSheet.rows)
        (targetSheet.rows, false)).2 = false :=
      foldl_unchanged_flag parseNum targetSheet.rows updates (targetSheet.rows, false)
        hunch rfl
    simp only [hflag, Bool.not_false, if_true, reduceIte]

/-- A populated cell fixture for the C1 witness. -/
def c1Cell : CellData := ⟨CellValue.num 42, CellType.number, none, none, none⟩

/-- A sheet holding `c1Cell` at row "1", column "A". -/
def c1Sheet : SheetData := ⟨"sheet-001", "S", ⟨100, 26⟩, [("1", [("A", c1Cell)])]⟩

/-- The loaded book file containing `c1Sheet`. -/
def c1Book : LoadedFile BookFile :=
  ⟨"/books/book-001.json",
    ⟨"1.0.0", ⟨"book-001", "B", "2025-01-01", none, none⟩, [c1Sheet]⟩⟩

/-- A one-book snapshot for the C1 witness. -/
def c1Snapshot : WorkspaceSnapshot :=
  ⟨⟨"/workspace.json",
    ⟨"1.0.0", ⟨"workspace-001", "W", "2025-01-01", none, none⟩, [],
      [⟨"book-001", "book-001.json", none, JsNum.finite 0, "books/book-001.json",
        none, some "sheet-001", "2025-01-01", "2025-01-01"⟩]⟩⟩,
    [c1Book]⟩

/-- Store state for the C1 witness. -/
def c1State : StoreState :=
  ⟨some c1Snapshot, some "book-001", some "sheet-001", [], []⟩

/-- Witness for C1: committing the literal `"42"` a second time to a cell
already storing the number `42` returns `null` and leaves the store
untouched. -/
theorem applyCellUpdates_noop_witness :
    applyCellUpdates "2025-01-02" (fun s => if s = "42" then some 42 else none) c1State
      [⟨"1", "A", "42"⟩] = (none, c1State) :=
  applyCellUpdates_noop "2025-01-02" (fun s => if s = "42" then some 42 else none)
    c1State c1Snapshot "book-001" "sheet-001" c1Book c1Sheet [⟨"1", "A", "42"⟩]
    rfl rfl (by decide) rfl (by decide) (by decide) (by decide) (by decide)

/-! ### Missing-entity behaviour of Store operations (C8) -/

/-- **C8 counterexample** — the claim "every Store operation with a missing
target fails with an explicit typed error" is false at this concrete input:
`renameBook` against a book id that does not exist returns the plain `null`
no-op result — byte-identical to the benign result of renaming an existing
book to its current name — and its result type has no error channel at all;
only `createSheet` (and `createBook`) throw. -/
theorem renameBook_missing_returns_null :
    renameBook "2025-01-02" c1State "book-missing" "New name" = (none, c1State) ∧
    renameBook "2025-01-02" c1State "book-001" "B" = (none, c1State) ∧
    createSheet "2025-01-02" "sheet-new" c1State "book-missing" =
      (Except.error "指定されたブックが見つかりません。", c1State) := by
  refine ⟨by decide, by decide, by rfl⟩

/-- **C8 (amended)** — a Store operation whose target book/sheet id does not
exist leaves the snapshot unchanged and pushes no history entry; `createSheet`
(and `createBook` on a missing workspace) signal the failure by throwing a
typed error, while `renameBook` and `applyCellUpdates` signal it by returning
`null`. -/
theorem missing_entity_behavior :
    (∀ (now fresh : String) (st : StoreState) (bookId : String),
      st.snapshot = none →
      createSheet now fresh st bookId =
        (Except.error "ワークスペースを開いてからシートを追加してください。", st)) ∧
    (∀ (now fresh : String) (st : StoreState) (snapshot : WorkspaceSnapshot)
        (bookId : String),
      st.snapshot = some snapshot →
      snapshot.books.find? (fun e => e.data.book.id = bookId) = none →
      createSheet now fresh st bookId =
        (Except.error "指定されたブックが見つかりません。", st)) ∧
    (∀ (now : String) (st : StoreState) (snapshot : WorkspaceSnapshot)
        (bookId nextName : String),
      st.snapshot = some snapshot →
      snapshot.books.find? (fun e => e.data.book.id = bookId) = none →
      renameBook now st bookId nextName = (none, st)) ∧
    (∀ (now : String) (parseNum : String → Option Int) (st : StoreState)
        (snapshot : WorkspaceSnapshot) (bid : String) (updates : List CellUpdate),
      st.snapshot = some snapshot →
      st.selectedBookId = some bid →
      snapshot.books.find? (fun e => e.data.book.id = bid) = none →
      applyCellUpdates now parseNum st updates = (none, st)) ∧
    (∀ (now : String) (parseNum : String → Option Int) (st : StoreState)
        (snapshot : WorkspaceSnapshot) (bid sid : String)
        (bookEntry : LoadedFile BookFile) (updates : List CellUpdate),
      st.snapshot = some snapshot →
      st.selectedBookId = some bid →
      st.selectedSheetId = some sid →
      snapshot.books.find? (fun e => e.data.book.id = bid) = some bookEntry →
      bookEntry.data.sheets.find? (fun sh => sh.id = sid) = none →
      applyCellUpdates now parseNum st updates = (none, st)) := by
  refine ⟨?_, ?_, ?_, ?_, ?_⟩
  · intro now fresh st bookId hs
    unfold createSheet
    rw [hs]
  · intro now fresh st snapshot bookId hs hf
    unfold createSheet
    simp only [hs, hf]
  · intro now st snapshot bookId nextName hs hf
    unfold renameBook
    by_cases ht : jsTrim nextName = ""
    · rw [if_pos ht]
    · rw [if_neg ht]
      simp only [hs, hf]
  · intro now parseNum st snapshot bid updates hs hb hf
    unfold applyCellUpdates
    by_cases hlen : updates.length = 0
    · rw [if_pos hlen]
    · rw [if_neg hlen]
      cases hsid : st.selectedSheetId with
      | none => simp only [hs, hb, hsid]
      | some sid =>
        simp only [hs, hb, hsid]
        by_cases hbe : bid = ""
        · rw [if_pos hbe]
        · rw [if_neg hbe]
          by_cases hse : sid = ""
          · rw [if_pos hse]
          · rw [if_neg hse]
            simp only [hf]
  · intro now parseNum st snapshot bid sid bookEntry updates hs hb hsh hf hfs
    unfold applyCellUpdates
    by_cases hlen : updates.length = 0
    · rw [if_pos hlen]
    · rw [if_neg hlen]
      simp only [hs, hb, hsh]
      by_cases hbe : bid = ""
      · rw [if_pos hbe]
      · rw [if_neg hbe]
        by_cases hse : sid = ""
        · rw [if_pos hse]
        · rw [if_neg hse]
          simp only [hf, hfs]

/-- Witness for C8's amended theorem at concrete inputs. -/
theorem missing_entity_behavior_witness :
    createSheet "2025-01-02" "sheet-new" c1State "book-missing" =
      (Except.error "指定されたブックが見つかりません。", c1State) ∧
    renameBook "2025-01-02" c1State "book-missing" "New name" = (none, c1State) :=
  ⟨missing_entity_behavior.2.1 "2025-01-02" "sheet-new" c1State c1Snapshot
      "book-missing" rfl (by decide),
    missing_entity_behavior.2.2.1 "2025-01-02" c1State c1Snapshot
      "book-missing" "New name" rfl (by decide)⟩

/-! ## Reconciliation engine (`src/lib/workspace/integrity.ts`,
`src/types/integrity.ts`) -/

/-- `IntegrityIssueType`. -/
inductive IntegrityIssueType where
  | bookIdMismatch
  | missingActiveSheet
  | missingFolderReference
  | invalidOrder
deriving DecidableEq, Repr

/-- `IntegritySeverity`. -/
inductive IntegritySeverity where
  | error
  | warning
deriving DecidableEq, Repr

/-- `IntegrityDecisionKey`. -/
inductive IntegrityDecisionKey where
  | useFile
  | useWorkspace
  | reset
  | normalize
  | defer
deriving DecidableEq, Repr

/-- `BookOrderReason`. -/
inductive BookOrderReason where
  | duplicate
  | nonFinite
deriving DecidableEq, Repr

/-- The four `details` record shapes the engine attaches to issues
(`BookIdMismatchDetails`, `MissingActiveSheetDetails`,
`MissingFolderReferenceDetails`, `InvalidOrderDetails`). -/
inductive IssueDetails where
  | bookIdMismatch (workspaceBookIndex : Nat)
      (workspaceId fileId filePath dataPath : String)
  | missingActiveSheet (workspaceBookIndex : Nat) (activeSheetId : String)
      (availableSheetIds : List String)
  | missingFolderReference (workspaceBookIndex : Nat) (folderId : String)
  | invalidOrder (workspaceBookIndex : Nat) (folderId : Option String)
      (order : JsNum) (reason : BookOrderReason)
deriving DecidableEq, Repr

/-- Dynamic read of `details.workspaceBookIndex` (present on every shape the
engine produces). -/
def IssueDetails.wsIndex : IssueDetails → Nat
  | .bookIdMismatch i _ _ _ _ => i
  | .missingActiveSheet i _ _ => i
  | .missingFolderReference i _ => i
  | .invalidOrder i _ _ _ => i

/-- Dynamic read of `details.workspaceId` (only the mismatch shape has it). -/
def IssueDetails.workspaceIdField : IssueDetails → Option String
  | .bookIdMismatch _ w _ _ _ => some w
  | _ => none

/-- Dynamic read of `details.fileId`. -/
def IssueDetails.fileIdField : IssueDetails → Option String
  | .bookIdMismatch _ _ f _ _ => some f
  | _ => none

/-- Dynamic read of `details.filePath`. -/
def IssueDetails.filePathField : IssueDetails → Option String
  | .bookIdMismatch _ _ _ p _ => some p
  | _ => none

/-- Dynamic read of `details.availableSheetIds`. -/
def IssueDetails.availableSheetIdsField : IssueDetails → Option (List String)
  | .missingActiveSheet _ _ l => some l
  | _ => none

/-- `IntegrityIssue`. -/
structure IntegrityIssue where
  id : String
  type : IntegrityIssueType
  severity : IntegritySeverity
  message : String
  bookRefId : Option String
  bookFileId : Option String
  supportedDecisions : List IntegrityDecisionKey
  details : Option IssueDetails
deriving DecidableEq, Repr

/-- The result record of `applyIntegrityRepairs`. -/
structure IntegrityRepairResult where
  snapshot : WorkspaceSnapshot
  resolvedIssueIds : List String
  bookIdReplacements : List (String × String)
  sheetSelectionUpdates : List (String × Option String)
deriving DecidableEq, Repr

/-- `normalizePath`: replace every backslash with a forward slash. -/
def normalizePath (value : String) : String :=
  String.mk (value.data.map (fun c => if c = '\\' then '/' else c))

/-- Model of `String.prototype.endsWith`. -/
def jsEndsWith (s suffix : String) : Bool :=
  suffix.data.isSuffixOf s.data

/-- `resolveByDataPath`: first loaded book whose normalized file path ends
with the normalized `dataPath`. -/
def resolveByDataPath (snapshot : WorkspaceSnapshot) (dataPath : String) :
    Option (LoadedFile BookFile) :=
  snapshot.books.find? (fun entry =>
    jsEndsWith (normalizePath entry.filePath) (normalizePath dataPath))

/-- `resolveWorkspaceBookIndex` (`-1` becomes `none`; a falsy id — missing or
empty — short-circuits to `-1`). -/
def resolveWorkspaceBookIndex (books : List BookReference)
    (bookId : Option String) : Option Nat :=
  match bookId with
  | none => none
  | some id => if id = "" then none else books.findIdx? (fun ref => ref.id = id)

/-- `replaceIdInList` (the source returns the original array when nothing
changed; the mapped list is value-identical in that case). -/
def replaceIdInList (list : Option (List String)) (fromId toId : String) :
    Option (List String) :=
  match list with
  | none => none
  | some l => some (l.map (fun id => if id = fromId then toId else id))

/-- `matchingIdFallback`. -/
def matchingIdFallback (details : Option IssueDetails) : Option String :=
  details.bind IssueDetails.workspaceIdField

/-- The body of `resolveCurrentBookId`'s `while` loop, with the explicit
bound `fuel = replacements.size + 1` (each iteration adds a distinct key to
`visited`, so the bound is never reached). -/
def resolveLoop (replacements : List (String × String)) :
    Nat → String → List String → String
  | 0, current, _ => current
  | fuel + 1, current, visited =>
      match objGet replacements current with
      | none => current
      | some next =>
          if visited.contains current then current
          else if next = "" then current
          else resolveLoop replacements fuel next (current :: visited)

/-- `resolveCurrentBookId`: chase the substitution chain, stopping on cycles
via the visited set; falsy input gives `undefined`. -/
def resolveCurrentBookId (originalId : Option String)
    (replacements : List (String × String)) : Option String :=
  match originalId with
  | none => none
  | some oid =>
      if oid = "" then none
      else some (resolveLoop replacements (replacements.length + 1) oid [])

/-- Rendering of a JS number inside a template string. -/
def JsNum.display : JsNum → String
  | .finite v => toString v
  | .nan => "NaN"
  | .posInf => "Infinity"
  | .negInf => "-Infinity"

/-- The duplicate-tracking key
`` `${folderId ?? '__root__'}:${Number.isFinite(order) ? order : 'NaN'}` ``. -/
def orderKeyOf (folderId : Option String) (order : JsNum) : String :=
  folderId.getD "__root__" ++ ":" ++ order.keyPart

/-- The primary-by-id, fallback-by-path resolution
(`snapshot.books.find(byId) ?? matchingByPath`). -/
def matchingByIdOf (snapshot : WorkspaceSnapshot) (bookRef : BookReference) :
    Option (LoadedFile BookFile) :=
  match snapshot.books.find? (fun entry => entry.data.book.id = bookRef.id) with
  | some e => some e
  | none => resolveByDataPath snapshot bookRef.dataPath

/-- The `book-id-mismatch` issue pushed when the path-resolved document's id
differs from the reference id. -/
def mismatchIssue (index : Nat) (bookRef : BookReference)
    (mp : LoadedFile BookFile) : IntegrityIssue :=
  ⟨"book-id-mismatch:" ++ bookRef.id ++ ":" ++ mp.data.book.id,
    .bookIdMismatch, .error,
    "workspace.json のブックID (" ++ bookRef.id ++ ") とファイル内の ID (" ++
      mp.data.book.id ++ ") が一致しません。",
    some bookRef.id, some mp.data.book.id,
    [.useFile, .useWorkspace, .defer],
    some (.bookIdMismatch index bookRef.id mp.data.book.id
      mp.filePath bookRef.dataPath)⟩

/-- The `book-id-mismatch` issues pushed for one reference (zero or one). -/
def mismatchIssuesOf (snapshot : WorkspaceSnapshot) (index : Nat)
    (bookRef : BookReference) : List IntegrityIssue :=
  match resolveByDataPath snapshot bookRef.dataPath with
  | some mp =>
      if ¬ mp.data.book.id = bookRef.id then [mismatchIssue index bookRef mp]
      else []
  | none => []

/-- The `missing-active-sheet` issues pushed for one reference. -/
def sheetIssuesOf (matchingById : Option (LoadedFile BookFile)) (index : Nat)
    (bookRef : BookReference) : List IntegrityIssue :=
  match matchingById, bookRef.activeSheetId with
  | some mb, some activeSheetId =>
      if activeSheetId = "" then []
      else
        let availableSheetIds := mb.data.sheets.map (fun sheet => sheet.id)
        if ¬ availableSheetIds.contains activeSheetId then
          [⟨"missing-active-sheet:" ++ bookRef.id, .missingActiveSheet, .warning,
            "ブック " ++ bookRef.id ++ " の activeSheetId (" ++ activeSheetId ++
              ") がブックファイル内に存在しません。",
            some bookRef.id, some mb.data.book.id,
            [.reset, .defer],
            some (.missingActiveSheet index activeSheetId availableSheetIds)⟩]
        else []
  | _, _ => []

/-- The `missing-folder-reference` issues pushed for one reference. -/
def folderIssuesOf (matchingById : Option (LoadedFile BookFile))
    (folderIds : List String) (index : Nat) (bookRef : BookReference) :
    List IntegrityIssue :=
  match bookRef.folderId with
  | some fid =>
      if fid = "" then []
      else if ¬ folderIds.contains fid then
        [⟨"missing-folder-reference:" ++ bookRef.id, .missingFolderReference,
          .warning,
          "ブック " ++ bookRef.id ++ " の folderId (" ++ fid ++
            ") が folders に存在しません。",
          some bookRef.id, matchingById.map (fun e => e.data.book.id),
          [.reset, .defer],
          some (.missingFolderReference index fid)⟩]
      else []
  | none => []

/-- The `invalid-order` issue for a non-finite `order`. -/
def nonFiniteIssue (mb : Option (LoadedFile BookFile)) (index : Nat)
    (bookRef : BookReference) : IntegrityIssue :=
  ⟨"invalid-order:" ++ bookRef.id, .invalidOrder, .warning,
    "ブック " ++ bookRef.id ++ " の order の値 (" ++ bookRef.order.display ++
      ") が数値ではありません。",
    some bookRef.id, mb.map (fun e => e.data.book.id),
    [.normalize, .defer],
    some (.invalidOrder index bookRef.folderId bookRef.order .nonFinite)⟩

/-- The retroactive duplicate `invalid-order` issue for the first reference
of a colliding key (details carry the current reference's folder/order). -/
def dupFirstIssue (snapshot : WorkspaceSnapshot) (allBooks : List BookReference)
    (firstIndex : Nat) (bookRef : BookReference) : IntegrityIssue :=
  let firstRef := (allBooks.get? firstIndex).getD bookRef
  ⟨"invalid-order:" ++ firstRef.id, .invalidOrder, .warning,
    "フォルダ " ++ bookRef.folderId.getD "(root)" ++ " で order=" ++
      bookRef.order.display ++ " が重複しています。",
    some firstRef.id,
    (snapshot.books.find? (fun entry => entry.data.book.id = firstRef.id)).map
      (fun e => e.data.book.id),
    [.normalize, .defer],
    some (.invalidOrder firstIndex bookRef.folderId bookRef.order .duplicate)⟩

/-- The duplicate `invalid-order` issue for the current reference. -/
def dupCurrentIssue (mb : Option (LoadedFile BookFile)) (index : Nat)
    (bookRef : BookReference) : IntegrityIssue :=
  ⟨"invalid-order:" ++ bookRef.id, .invalidOrder, .warning,
    "フォルダ " ++ bookRef.folderId.getD "(root)" ++ " で order=" ++
      bookRef.order.display ++ " が重複しています。",
    some bookRef.id, mb.map (fun e => e.data.book.id),
    [.normalize, .defer],
    some (.invalidOrder index bookRef.folderId bookRef.order .duplicate)⟩

/-- The `invalid-order` issues pushed for one reference, together with the
updated duplicate tracker and flagged-key set. -/
def orderResultOf (snapshot : WorkspaceSnapshot) (allBooks : List BookReference)
    (matchingById : Option (LoadedFile BookFile)) (index : Nat)
    (bookRef : BookReference) (tracker : List (String × Nat))
    (flagged : List String) :
    List IntegrityIssue × List (String × Nat) × List String :=
  let orderKey := orderKeyOf bookRef.folderId bookRef.order
  if bookRef.order.isFinite = false then
    ([nonFiniteIssue matchingById index bookRef], tracker, flagged)
  else
    match objGet tracker orderKey with
    | some firstIndex =>
        let firstIssue : List IntegrityIssue :=
          if flagged.contains orderKey then []
          else [dupFirstIssue snapshot allBooks firstIndex bookRef]
        let flagged1 := if flagged.contains orderKey then flagged
          else orderKey :: flagged
        (firstIssue ++ [dupCurrentIssue matchingById index bookRef],
          tracker, flagged1)
    | none => ([], objSet tracker orderKey index, flagged)

/-- One iteration of the `workspaceData.books.forEach` body of
`detectIntegrityIssues`: the issues pushed for this reference (in push
order), plus the updated duplicate tracker and flagged-key set. -/
def detectStep (snapshot : WorkspaceSnapshot) (allBooks : List BookReference)
    (folderIds : List String) (index : Nat) (bookRef : BookReference)
    (tracker : List (String × Nat)) (flagged : List String) :
    List IntegrityIssue × List (String × Nat) × List String :=
  let matchingById := matchingByIdOf snapshot bookRef
  let ord := orderResultOf snapshot allBooks matchingById index bookRef tracker flagged
  (mismatchIssuesOf snapshot index bookRef ++
    sheetIssuesOf matchingById index bookRef ++
    folderIssuesOf matchingById folderIds index bookRef ++ ord.1,
    ord.2)

/-- The `forEach` loop of `detectIntegrityIssues` over the indexed book
references, threading the tracker state. -/
def detectLoop (snapshot : WorkspaceSnapshot) (allBooks : List BookReference)
    (folderIds : List String) :
    List (Nat × BookReference) → List (String × Nat) → List String →
      List IntegrityIssue
  | [], _, _ => []
  | (index, bookRef) :: rest, tracker, flagged =>
      let step := detectStep snapshot allBooks folderIds index bookRef tracker flagged
      step.1 ++ detectLoop snapshot allBooks folderIds rest step.2.1 step.2.2

/-- `detectIntegrityIssues(snapshot)`. -/
def detectIntegrityIssues (snapshot : WorkspaceSnapshot) : List IntegrityIssue :=
  detectLoop snapshot snapshot.workspace.data.books
    (snapshot.workspace.data.folders.map (fun folder => folder.id))
    snapshot.workspace.data.books.enum [] []

/-- Code-point lexicographic "strictly less" on character lists, the model of
`localeCompare(...) < 0` for the ids compared in the book-order sort. -/
def charListLt : List Char → List Char → Bool
  | [], [] => false
  | [], _ :: _ => true
  | _ :: _, [] => false
  | a :: as, b :: bs =>
      if a.toNat < b.toNat then true
      else if b.toNat < a.toNat then false
      else charListLt as bs

/-- `a.localeCompare(b) < 0`, modelled as code-point lexicographic comparison
(written character-wise on `String.data`). -/
def jsStrLt (a b : String) : Bool := charListLt a.data b.data

/-- Strict "comparator < 0" for the book-order sort:
`a.order === b.order ? (a.id ?? '').localeCompare(b.id ?? '') : a.order - b.order`. -/
def bookCmpLt (a b : BookReference) : Bool :=
  if JsNum.strictEq a.order b.order then jsStrLt a.id b.id
  else JsNum.subLtZero a.order b.order

/-- Total "keeps its place before" relation realising a stable
`Array.prototype.sort` with `bookCmpLt`: comparator order first, original
array position on comparator ties. -/
def annLe (p q : BookReference × Nat) : Bool :=
  if bookCmpLt p.1 q.1 then true
  else if bookCmpLt q.1 p.1 then false
  else p.2 ≤ q.2

/-- Stable insertion into a sorted list (`le a b` = `a` goes before `b`). -/
def orderedInsertB {α : Type} (le : α → α → Bool) (a : α) : List α → List α
  | [] => [a]
  | b :: l => if le a b then a :: b :: l else b :: orderedInsertB le a l

/-- Stable insertion sort; used to model the engine-provided stable
`Array.prototype.sort` (on 3-element arrays V8 itself runs binary insertion
sort). -/
def insertionSortB {α : Type} (le : α → α → Bool) : List α → List α
  | [] => []
  | a :: l => orderedInsertB le a (insertionSortB le l)

/-- `normalizeBookOrders`: group references by `folderId ?? null`, sort each
group stably by `(order, id)` and overwrite each member's `order` with its
rank.  References are identified by their original array position (the JS
code mutates the objects through shared references). -/
def normalizeBookOrders (books : List BookReference) : List BookReference :=
  let annotated := books.enum.map (fun p => (p.2, p.1))
  books.enum.map (fun p =>
    let group := annotated.filter (fun q => q.1.folderId = p.2.folderId)
    let sorted := insertionSortB annLe group
    let rank := sorted.findIdx (fun q => q.2 = p.1)
    { p.2 with order := JsNum.finite (Int.ofNat rank) })

/-- The mutable locals of `applyIntegrityRepairs` threaded through the
per-issue loop: the (aliased) workspace book array, the workspace settings,
the loaded book files, the substitution map, and the accumulated outputs and
dirty flags. -/
structure RepairState where
  wsBooks : List BookReference
  settings : Option WorkspaceSettings
  books : List (LoadedFile BookFile)
  replacements : List (String × String)
  resolvedIssueIds : List String
  bookIdReplacements : List (String × String)
  sheetSelectionUpdates : List (String × Option String)
  shouldNormalizeOrders : Bool
  workspaceMutated : Bool
  booksMutated : Bool
deriving DecidableEq, Repr

/-- One iteration of the `issues.forEach` loop of `applyIntegrityRepairs`.
Out-of-range `workspaceBookIndex` values (impossible for detect-produced
issues) are skipped rather than extending the array as a raw JS index write
would. -/
def repairStep (now : String) (decisions : List (String × IntegrityDecisionKey))
    (st : RepairState) (issue : IntegrityIssue) : RepairState :=
  match objGet decisions issue.id with
  | none => st
  | some decision =>
    if decision = .defer then st
    else if issue.type = .bookIdMismatch then
      if decision = .useFile then
        let originalId :=
          match issue.details.bind IssueDetails.workspaceIdField with
          | some w => some w
          | none =>
            match issue.bookRefId with
            | some b => some b
            | none => matchingIdFallback issue.details
        let newId := issue.details.bind IssueDetails.fileIdField
        match originalId, newId with
        | some oid, some nid =>
          if oid = "" ∨ nid = "" then st
          else
            let currentId := (resolveCurrentBookId (some oid) st.replacements).getD oid
            let bookIndex : Option Nat :=
              match issue.details.map IssueDetails.wsIndex with
              | some i => some i
              | none => resolveWorkspaceBookIndex st.wsBooks (some currentId)
            match bookIndex with
            | none => st
            | some bIdx =>
              match st.wsBooks.get? bIdx with
              | none => st
              | some prevRef =>
                if prevRef.id = "" then st
                else
                  let settings0 := st.settings.getD emptySettings
                  let nextRecentBookIds :=
                    replaceIdInList settings0.recentBookIds prevRef.id nid
                  { st with
                    wsBooks := st.wsBooks.set bIdx
                      { prevRef with id := nid, updatedAt := now },
                    settings := some { settings0 with
                      recentBookIds :=
                        match nextRecentBookIds with
                        | some l => some l
                        | none => settings0.recentBookIds },
                    replacements := objSet st.replacements oid nid,
                    bookIdReplacements := objSet st.bookIdReplacements oid nid,
                    workspaceMutated := true,
                    resolvedIssueIds := st.resolvedIssueIds ++ [issue.id] }
        | _, _ => st
      else if decision = .useWorkspace then
        let seed :=
          match issue.details.bind IssueDetails.workspaceIdField with
          | some w => some w
          | none => issue.bookRefId
        let workspaceId :=
          match resolveCurrentBookId seed st.replacements with
          | some r => some r
          | none => seed
        let fileId := issue.details.bind IssueDetails.fileIdField
        let filePath := issue.details.bind IssueDetails.filePathField
        let targetIdx : Option Nat :=
          match st.books.findIdx? (fun entry =>
            match filePath with
            | some fp => entry.filePath = fp
            | none => false) with
          | some i => some i
          | none => st.books.findIdx? (fun entry =>
              match fileId with
              | some fid => entry.data.book.id = fid
              | none => false)
        match workspaceId, targetIdx with
        | some wid, some tIdx =>
          if wid = "" then st
          else
            match st.books.get? tIdx with
            | none => st
            | some entry =>
              { st with
                books := st.books.set tIdx
                  { entry with data := { entry.data with
                    book := { entry.data.book with id := wid, updatedAt := some now } } },
                replacements := objSet st.replacements (fileId.getD wid) wid,
                booksMutated := true,
                resolvedIssueIds := st.resolvedIssueIds ++ [issue.id] }
        | _, _ => st
      else st
    else if issue.type = .missingActiveSheet ∧ decision = .reset then
      let originalId := issue.bookRefId
      let currentId :=
        match resolveCurrentBookId originalId st.replacements with
        | some r => some r
        | none => originalId
      let bookIndex : Option Nat :=
        match issue.details.map IssueDetails.wsIndex with
        | some i => some i
        | none => resolveWorkspaceBookIndex st.wsBooks currentId
      match bookIndex with
      | none => st
      | some bIdx =>
        match st.wsBooks.get? bIdx with
        | none => st
        | some prevRef =>
          let availableSheetIds :=
            (issue.details.bind IssueDetails.availableSheetIdsField).getD []
          let nextActiveSheetId : Option String := availableSheetIds.head?
          let prevRef1 := { prevRef with
            activeSheetId := nextActiveSheetId, updatedAt := now }
          { st with
            wsBooks := st.wsBooks.set bIdx prevRef1,
            sheetSelectionUpdates := objSet st.sheetSelectionUpdates
              (currentId.getD prevRef1.id) nextActiveSheetId,
            workspaceMutated := true,
            resolvedIssueIds := st.resolvedIssueIds ++ [issue.id] }
    else if issue.type = .missingFolderReference ∧ decision = .reset then
      let originalId := issue.bookRefId
      let currentId :=
        match resolveCurrentBookId originalId st.replacements with
        | some r => some r
        | none => originalId
      let bookIndex : Option Nat :=
        match issue.details.map IssueDetails.wsIndex with
        | some i => some i
        | none => resolveWorkspaceBookIndex st.wsBooks currentId
      match bookIndex with
      | none => st
      | some bIdx =>
        match st.wsBooks.get? bIdx with
        | none => st
        | some prevRef =>
          { st with
            wsBooks := st.wsBooks.set bIdx
              { prevRef with folderId := none, updatedAt := now },
            workspaceMutated := true,
            resolvedIssueIds := st.resolvedIssueIds ++ [issue.id] }
    else if issue.type = .invalidOrder ∧ decision = .normalize then
      { st with
        shouldNormalizeOrders := true,
        resolvedIssueIds := st.resolvedIssueIds ++ [issue.id] }
    else st

/-- `applyIntegrityRepairs(snapshot, issues, decisions)`: clone the snapshot,
run every decided issue through `repairStep`, run the deferred
order-normalization pass, and rebuild the result (the dirty flags only decide
whether `updatedAt` is refreshed — the in-place mutations are visible in the
clone regardless, and every mutation sets its flag). -/
def applyIntegrityRepairs (now : String) (snapshot : WorkspaceSnapshot)
    (issues : List IntegrityIssue)
    (decisions : List (String × IntegrityDecisionKey)) : IntegrityRepairResult :=
  let nextSnapshot := cloneSnapshot snapshot
  let init : RepairState :=
    ⟨nextSnapshot.workspace.data.books,
      nextSnapshot.workspace.data.workspace.settings,
      nextSnapshot.books, [], [], [], [], false, false, false⟩
  let st := issues.foldl (repairStep now decisions) init
  let st1 :=
    if st.shouldNormalizeOrders then
      { st with wsBooks := normalizeBookOrders st.wsBooks, workspaceMutated := true }
    else st
  let finalSnapshot : WorkspaceSnapshot :=
    { workspace := { nextSnapshot.workspace with data :=
        { nextSnapshot.workspace.data with
          workspace := { nextSnapshot.workspace.data.workspace with
            updatedAt :=
              if st1.workspaceMutated then some now
              else nextSnapshot.workspace.data.workspace.updatedAt,
            settings := st1.settings },
          books := st1.wsBooks } },
      books := st1.books }
  ⟨finalSnapshot, st1.resolvedIssueIds, st1.bookIdReplacements,
    st1.sheetSelectionUpdates⟩

/-- **C9** — `applyIntegrityRepairs` is a pure function over a deep copy of
its input: the deep copy is structurally identical to the input (so the input
value is what all modifications start from, and the caller's snapshot is
never written through — in this embedding all functions are observationally
pure), the result is insensitive to replacing the argument by its deep copy,
and an empty issue list returns the input snapshot unchanged. -/
theorem repair_pure_on_deep_copy :
    (∀ s : WorkspaceSnapshot, cloneSnapshot s = s) ∧
    (∀ (now : String) (s : WorkspaceSnapshot) (issues : List IntegrityIssue)
        (decisions : List (String × IntegrityDecisionKey)),
      applyIntegrityRepairs now s issues decisions =
        applyIntegrityRepairs now (cloneSnapshot s) issues decisions) ∧
    (∀ (now : String) (s : WorkspaceSnapshot)
        (decisions : List (String × IntegrityDecisionKey)),
      (applyIntegrityRepairs now s [] decisions).snapshot = s) := by
  refine ⟨fun s => rfl, fun now s issues decisions => rfl,
    fun now s decisions => rfl⟩

/-! ### Detect/repair round trip for `book-id-mismatch` (C2) -/

theorem mem_mismatchIssuesOf (snapshot : WorkspaceSnapshot) (index : Nat)
    (bookRef : BookReference) (issue : IntegrityIssue)
    (h : issue ∈ mismatchIssuesOf snapshot index bookRef) :
    ∃ mp, resolveByDataPath snapshot bookRef.dataPath = some mp ∧
      ¬ mp.data.book.id = bookRef.id ∧ issue = mismatchIssue index bookRef mp := by
  unfold mismatchIssuesOf at h
  split at h
  · rename_i mp hmp
    split at h
    · rename_i hne
      simp only [List.mem_singleton] at h
      exact ⟨mp, hmp, hne, h⟩
    · simp at h
  · simp at h

theorem mem_sheetIssuesOf_type (mb : Option (LoadedFile BookFile)) (index : Nat)
    (bookRef : BookReference) (issue : IntegrityIssue)
    (h : issue ∈ sheetIssuesOf mb index bookRef) :
    issue.type = .missingActiveSheet := by
  unfold sheetIssuesOf at h
  split at h
  · split at h
    · simp at h
    · simp only [] at h
      split at h
      · simp only [List.mem_singleton] at h
        subst h
        rfl
      · simp at h
  · simp at h

theorem mem_folderIssuesOf_type (mb : Option (LoadedFile BookFile))
    (folderIds : List String) (index : Nat) (bookRef : BookReference)
    (issue : IntegrityIssue)
    (h : issue ∈ folderIssuesOf mb folderIds index bookRef) :
    issue.type = .missingFolderReference := by
  unfold folderIssuesOf at h
  split at h
  · split at h
    · simp at h
    · split at h
      · simp only [List.mem_singleton] at h
        subst h
        rfl
      · simp at h
  · simp at h

theorem mem_orderResultOf_type (snapshot : WorkspaceSnapshot)
    (allBooks : List BookReference) (mb : Option (LoadedFile BookFile))
    (index : Nat) (bookRef : BookReference) (tracker : List (String × Nat))
    (flagged : List String) (issue : IntegrityIssue)
    (h : issue ∈ (orderResultOf snapshot allBooks mb index bookRef tracker flagged).1) :
    issue.type = .invalidOrder := by
  unfold orderResultOf at h
  simp only [] at h
  split at h
  · simp only [List.mem_singleton] at h
    subst h
    rfl
  · split at h
    · simp only [List.mem_append] at h
      rcases h with h | h
      · split at h
        · simp at h
        · simp only [List.mem_singleton] at h
          subst h
          rfl
      · simp only [List.mem_singleton] at h
        subst h
        rfl
    · simp at h

theorem detectLoop_mismatch_shape (snapshot : WorkspaceSnapshot)
    (allBooks : List BookReference) (folderIds : List String) :
    ∀ (rest : List (Nat × BookReference)) (tracker : List (String × Nat))
      (flagged : List String) (issue : IntegrityIssue),
      issue ∈ detectLoop snapshot allBooks folderIds rest tracker flagged →
      issue.type = .bookIdMismatch →
      ∃ index bookRef mp, (index, bookRef) ∈ rest ∧
        resolveByDataPath snapshot bookRef.dataPath = some mp ∧
        ¬ mp.data.book.id = bookRef.id ∧ issue = mismatchIssue index bookRef mp := by
  intro rest
  induction rest with
  | nil =>
    intro tracker flagged issue h _
    simp [detectLoop] at h
  | cons p rest ih =>
    intro tracker flagged issue h htype
    obtain ⟨index, bookRef⟩ := p
    unfold detectLoop at h
    simp only [List.mem_append] at h
    rcases h with h | h
    · unfold detectStep at h
      simp only [List.mem_append] at h
      rcases h with ((h | h) | h) | h
      · obtain ⟨mp, hmp, hne, heq⟩ := mem_mismatchIssuesOf snapshot index bookRef issue h
        exact ⟨index, bookRef, mp, List.mem_cons_self _ _, hmp, hne, heq⟩
      · rw [mem_sheetIssuesOf_type _ _ _ _ h] at htype
        simp at htype
      · rw [mem_folderIssuesOf_type _ _ _ _ _ h] at htype
        simp at htype
      · rw [mem_orderResultOf_type _ _ _ _ _ _ _ _ h] at htype
        simp at htype
    · obtain ⟨i, b, mp, hmem, hmp, hne, heq⟩ := ih _ _ issue h htype
      exact ⟨i, b, mp, List.mem_cons_of_mem _ hmem, hmp, hne, heq⟩

theorem objGet_nil {α : Type} (k : String) : objGet ([] : List (String × α)) k = none := rfl

theorem objSet_nil {α : Type} (k : String) (v : α) : objSet [] k v = [(k, v)] := rfl

theorem objGet_singleton_self {α : Type} (k : String) (v : α) :
    objGet [(k, v)] k = some v := by
  simp [objGet]

theorem resolveCurrentBookId_nil (oid : String) (h : ¬ oid = "") :
    resolveCurrentBookId (some oid) [] = some oid := by
  show (if oid = "" then none
    else some (resolveLoop [] (List.length [] + 1) oid [])) = some oid
  rw [if_neg h]
  rfl

theorem repairStep_useFile_proj (now : String)
    (decisions : List (String × IntegrityDecisionKey)) (st : RepairState)
    (index : Nat) (bookRef : BookReference) (mp : LoadedFile BookFile)
    (hdec : objGet decisions (mismatchIssue index bookRef mp).id =
      some .useFile)
    (hrep : st.replacements = [])
    (hoid : ¬ bookRef.id = "") (hnid : ¬ mp.data.book.id = "")
    (hget : st.wsBooks.get? index = some bookRef) :
    (repairStep now decisions st (mismatchIssue index bookRef mp)).wsBooks =
      st.wsBooks.set index
        { bookRef with id := mp.data.book.id, updatedAt := now } ∧
    (repairStep now decisions st (mismatchIssue index bookRef mp)).bookIdReplacements =
      objSet st.bookIdReplacements bookRef.id mp.data.book.id ∧
    (repairStep now decisions st (mismatchIssue index bookRef mp)).shouldNormalizeOrders =
      st.shouldNormalizeOrders := by
  unfold repairStep
  rw [hdec]
  simp only [mismatchIssue, IssueDetails.workspaceIdField, IssueDetails.fileIdField,
    IssueDetails.wsIndex, Option.some_bind, Option.map_some', reduceCtorEq,
    reduceIte, hrep, resolveCurrentBookId_nil bookRef.id hoid, Option.getD_some,
    hget]
  rw [if_neg (by
    intro hbad
    rcases hbad with hbad | hbad
    · exact hoid hbad
    · exact hnid hbad)]
  rw [if_neg hoid]
  exact ⟨rfl, rfl, rfl⟩

/-- **C2 (amended)** — for any snapshot whose only detected issue is a
`book-id-mismatch`, provided neither of the two ids it carries is the empty
string, the issue carries the reference id and the path-matched document id,
and applying `useFile` yields a snapshot whose reference id equals the
document id, with `bookIdReplacements` mapping the old reference id to the
document id.  (The empty-string proviso is forced by the `if (!originalId ||
!newId) return` guard: see the counterexample.) -/
theorem detect_repair_useFile (now : String) (s : WorkspaceSnapshot)
    (issue : IntegrityIssue)
    (h1 : detectIntegrityIssues s = [issue])
    (h2 : issue.type = .bookIdMismatch)
    (h3 : ¬ issue.bookRefId = some "")
    (h4 : ¬ issue.bookFileId = some "") :
    ∃ (index : Nat) (bookRef : BookReference) (mp : LoadedFile BookFile),
      s.workspace.data.books.get? index = some bookRef ∧
      resolveByDataPath s bookRef.dataPath = some mp ∧
      issue.bookRefId = some bookRef.id ∧
      issue.bookFileId = some mp.data.book.id ∧
      ¬ mp.data.book.id = bookRef.id ∧
      ((applyIntegrityRepairs now s [issue]
          [(issue.id, .useFile)]).snapshot.workspace.data.books.get? index).map
        (fun b => b.id) = some mp.data.book.id ∧
      (applyIntegrityRepairs now s [issue]
          [(issue.id, .useFile)]).bookIdReplacements =
        [(bookRef.id, mp.data.book.id)] := by
  have hmem : issue ∈ detectIntegrityIssues s := by
    rw [h1]
    exact List.mem_singleton.mpr rfl
  unfold detectIntegrityIssues at hmem
  obtain ⟨index, bookRef, mp, hrest, hres, hne, hshape⟩ :=
    detectLoop_mismatch_shape s _ _ _ _ _ issue hmem h2
  have hget : s.workspace.data.books.get? index = some bookRef := by
    rw [List.get?_eq_getElem?]
    exact List.mk_mem_enum_iff_getElem?.mp hrest
  have hoid : ¬ bookRef.id = "" := by
    intro hbad
    apply h3
    rw [hshape]
    simp [mismatchIssue, hbad]
  have hnid : ¬ mp.data.book.id = "" := by
    intro hbad
    apply h4
    rw [hshape]
    simp [mismatchIssue, hbad]
  have hlt : index < s.workspace.data.books.length := by
    obtain ⟨hl, _⟩ := List.get?_eq_some.mp hget
    exact hl
  subst hshape
  refine ⟨index, bookRef, mp, hget, hres, rfl, rfl, hne, ?_, ?_⟩ <;>
  · have hdec : objGet [((mismatchIssue index bookRef mp).id,
        IntegrityDecisionKey.useFile)] (mismatchIssue index bookRef mp).id =
        some .useFile := objGet_singleton_self _ _
    obtain ⟨hw, hb, hn⟩ := repairStep_useFile_proj now _
      ⟨s.workspace.data.books, s.workspace.data.workspace.settings, s.books,
        [], [], [], [], false, false, false⟩
      index bookRef mp hdec rfl hoid hnid hget
    unfold applyIntegrityRepairs
    simp only [cloneSnapshot, List.foldl_cons, List.foldl_nil, hn,
      Bool.false_eq_true, if_false, reduceIte, hw, hb, objSet_nil,
      List.get?_set_eq_of_lt _ hlt, Option.map_some']

/-- Reference fixture for scenario 1: the index says `book-xyz`, the file
says `book-001`. -/
def c2Ref : BookReference :=
  ⟨"book-xyz", "book-001.json", none, JsNum.finite 0, "books/book-001.json",
    none, none, "2025-01-01", "2025-01-01"⟩

/-- Snapshot fixture for scenario 1. -/
def c2Snapshot : WorkspaceSnapshot :=
  ⟨⟨"/workspace.json",
    ⟨"1.0.0", ⟨"workspace-001", "W", "2025-01-01", none, none⟩, [], [c2Ref]⟩⟩,
    [c1Book]⟩

/-- Witness for C2 at scenario 1 (`book-xyz` vs `book-001`). -/
theorem detect_repair_useFile_witness :
    ∃ (index : Nat) (bookRef : BookReference) (mp : LoadedFile BookFile),
      c2Snapshot.workspace.data.books.get? index = some bookRef ∧
      resolveByDataPath c2Snapshot bookRef.dataPath = some mp ∧
      (mismatchIssue 0 c2Ref c1Book).bookRefId = some bookRef.id ∧
      (mismatchIssue 0 c2Ref c1Book).bookFileId = some mp.data.book.id ∧
      ¬ mp.data.book.id = bookRef.id ∧
      ((applyIntegrityRepairs "2025-01-02" c2Snapshot [mismatchIssue 0 c2Ref c1Book]
          [((mismatchIssue 0 c2Ref c1Book).id,
            .useFile)]).snapshot.workspace.data.books.get? index).map
        (fun b => b.id) = some mp.data.book.id ∧
      (applyIntegrityRepairs "2025-01-02" c2Snapshot [mismatchIssue 0 c2Ref c1Book]
          [((mismatchIssue 0 c2Ref c1Book).id, .useFile)]).bookIdReplacements =
        [(bookRef.id, mp.data.book.id)] :=
  detect_repair_useFile "2025-01-02" c2Snapshot (mismatchIssue 0 c2Ref c1Book)
    (by decide) (by decide) (by decide) (by decide)

/-- Reference fixture with an empty-string id. -/
def c2EmptyRef : BookReference :=
  ⟨"", "book-001.json", none, JsNum.finite 0, "books/book-001.json",
    none, none, "2025-01-01", "2025-01-01"⟩

/-- Snapshot whose only detected issue is a `book-id-mismatch` whose
reference id is the empty string. -/
def c2EmptySnap : WorkspaceSnapshot :=
  ⟨⟨"/workspace.json",
    ⟨"1.0.0", ⟨"workspace-001", "W", "2025-01-01", none, none⟩, [],
      [c2EmptyRef]⟩⟩,
    [c1Book]⟩

/-- **C2 counterexample** — with a reference id `""`, detect still reports a
single `book-id-mismatch` carrying both ids, but `useFile` silently skips
(`if (!originalId || !newId) return`): the reference id stays `""`, which is
not the document id `book-001`, and `bookIdReplacements` stays empty — the
claim as stated fails on this snapshot. -/
theorem detect_repair_useFile_counterexample :
    detectIntegrityIssues c2EmptySnap = [mismatchIssue 0 c2EmptyRef c1Book] ∧
    (mismatchIssue 0 c2EmptyRef c1Book).type = .bookIdMismatch ∧
    (mismatchIssue 0 c2EmptyRef c1Book).bookRefId = some "" ∧
    (mismatchIssue 0 c2EmptyRef c1Book).bookFileId = some "book-001" ∧
    (applyIntegrityRepairs "2025-01-02" c2EmptySnap
        [mismatchIssue 0 c2EmptyRef c1Book]
        [((mismatchIssue 0 c2EmptyRef c1Book).id,
          .useFile)]).snapshot.workspace.data.books.map (fun b => b.id) = [""] ∧
    (applyIntegrityRepairs "2025-01-02" c2EmptySnap
        [mismatchIssue 0 c2EmptyRef c1Book]
        [((mismatchIssue 0 c2EmptyRef c1Book).id, .useFile)]).bookIdReplacements =
      [] ∧
    ¬ ("" : String) = "book-001" := by
  refine ⟨by decide, rfl, rfl, rfl, by decide, by decide, by decide⟩

/-! ### Duplicate / non-finite `invalid-order` accounting (C7) -/

/-- Extract the `workspaceBookIndex` of an `invalid-order`/`duplicate` issue
whose `(folderId, order)` tracker key is `k`. -/
def dupIdxOf (k : String) (issue : IntegrityIssue) : Option Nat :=
  match issue.type, issue.details with
  | .invalidOrder, some (.invalidOrder i fid ord .duplicate) =>
      if orderKeyOf fid ord = k then some i else none
  | _, _ => none

/-- The indexes carried by the duplicate-reason `invalid-order` issues for
key `k`, in emission order. -/
def dupIndices (issues : List IntegrityIssue) (k : String) : List Nat :=
  issues.filterMap (dupIdxOf k)

/-- Extract the `workspaceBookIndex` of a non-finite-reason `invalid-order`
issue. -/
def nfIdxOf (issue : IntegrityIssue) : Option Nat :=
  match issue.type, issue.details with
  | .invalidOrder, some (.invalidOrder i _ _ .nonFinite) => some i
  | _, _ => none

/-- The indexes carried by the non-finite-reason `invalid-order` issues, in
emission order. -/
def nfIndices (issues : List IntegrityIssue) : List Nat :=
  issues.filterMap nfIdxOf

/-- The positions of the finite-order references whose tracker key is `k`. -/
def keyIndices (l : List (Nat × BookReference)) (k : String) : List Nat :=
  l.filterMap (fun p =>
    if p.2.order.isFinite = true ∧ orderKeyOf p.2.folderId p.2.order = k
    then some p.1 else none)

/-- The positions of the references with a non-finite order. -/
def nonFiniteIndices (l : List (Nat × BookReference)) : List Nat :=
  l.filterMap (fun p => if p.2.order.isFinite = true then none else some p.1)

/-- What the detect loop emits for key `k` given the indexes `pkk` already
seen for `k` and the indexes `rkk` still to come: every index of the
colliding key once the key has at least two members, nothing otherwise (the
already-flagged prefix contributes only its retroactive first index). -/
def dupSpec (pkk rkk : List Nat) : List Nat :=
  if 2 ≤ pkk.length + rkk.length then
    (if pkk.length = 1 then pkk else []) ++ rkk
  else []

theorem dupSpec_nil (pkk : List Nat) : dupSpec pkk [] = [] := by
  unfold dupSpec
  simp only [List.length_nil, Nat.add_zero, List.append_nil]
  split
  · split
    · rename_i h2 h1
      rw [h1] at h2
      omega
    · rfl
  · rfl

theorem dupIdxOf_of_type_ne (k : String) (issue : IntegrityIssue)
    (h : ¬ issue.type = .invalidOrder) : dupIdxOf k issue = none := by
  unfold dupIdxOf
  split
  · rename_i heq _
    exact absurd heq h
  · rfl

theorem nfIdxOf_of_type_ne (issue : IntegrityIssue)
    (h : ¬ issue.type = .invalidOrder) : nfIdxOf issue = none := by
  unfold nfIdxOf
  split
  · rename_i heq _
    exact absurd heq h
  · rfl

theorem objGet_cons {α : Type} (p : String × α) (o : List (String × α)) (k : String) :
    objGet (p :: o) k = if p.1 = k then some p.2 else objGet o k := by
  unfold objGet
  by_cases hp : p.1 = k
  · rw [List.find?_cons_of_pos _ (by simpa using hp), if_pos hp]
    rfl
  · rw [List.find?_cons_of_neg _ (by simpa using hp), if_neg hp]

theorem objGet_append {α : Type} (o o' : List (String × α)) (k : String) :
    objGet (o ++ o') k = (objGet o k).or (objGet o' k) := by
  unfold objGet
  rw [List.find?_append]
  cases List.find? (fun p => decide (p.1 = k)) o <;> rfl

theorem objGet_map_upd_self {α : Type} (o : List (String × α)) (k : String) (v : α) :
    objGet (o.map (fun p => if p.1 = k then (k, v) else p)) k =
      (objGet o k).map (fun _ => v) := by
  induction o with
  | nil => rfl
  | cons p o ih =>
    simp only [List.map_cons]
    by_cases hp : p.1 = k
    · rw [if_pos hp, objGet_cons, objGet_cons, if_pos hp]
      simp
    · rw [if_neg hp, objGet_cons, objGet_cons, if_neg hp, if_neg hp, ih]

theorem objGet_map_upd_ne {α : Type} (o : List (String × α)) (k k' : String) (v : α)
    (h : ¬ k' = k) :
    objGet (o.map (fun p => if p.1 = k then (k, v) else p)) k' = objGet o k' := by
  induction o with
  | nil => rfl
  | cons p o ih =>
    simp only [List.map_cons]
    by_cases hp : p.1 = k
    · rw [if_pos hp, objGet_cons, objGet_cons]
      have : ¬ (k, v).1 = k' := by simp; exact fun hh => h hh.symm
      rw [if_neg this, if_neg (show ¬ p.1 = k' from fun hh => h (hh ▸ hp)), ih]
    · rw [if_neg hp, objGet_cons, objGet_cons, ih]

theorem objGet_objSet_self {α : Type} (o : List (String × α)) (k : String)
    (v : α) : objGet (objSet o k v) k = some v := by
  unfold objSet
  split
  · rename_i hsome
    rw [objGet_map_upd_self]
    unfold objGet
    obtain ⟨x, hx⟩ := Option.isSome_iff_exists.mp hsome
    rw [hx]
    rfl
  · rename_i hnone
    rw [objGet_append]
    unfold objGet
    have hfind : List.find? (fun p => decide (p.1 = k)) o = none :=
      Option.not_isSome_iff_eq_none.mp hnone
    rw [hfind]
    simp [List.find?]

theorem objGet_objSet_ne {α : Type} (o : List (String × α)) (k k' : String)
    (v : α) (h : ¬ k' = k) : objGet (objSet o k v) k' = objGet o k' := by
  unfold objSet
  split
  · exact objGet_map_upd_ne o k k' v h
  · rw [objGet_append]
    have : objGet [(k, v)] k' = none := by
      rw [objGet_cons]
      rw [if_neg (show ¬ (k, v).1 = k' from fun hh => h hh.symm)]
      rfl
    rw [this]
    cases objGet o k' <;> rfl

theorem dupSpec_of_ge2 (pkk rkk : List Nat) (h : 2 ≤ pkk.length) :
    dupSpec pkk rkk = rkk := by
  unfold dupSpec
  rw [if_pos (by omega), if_neg (by omega)]
  rfl

theorem dupSpec_nil_cons (i : Nat) (r : List Nat) :
    dupSpec [] (i :: r) = dupSpec [i] r := by
  unfold dupSpec
  simp only [List.length_nil, List.length_cons, List.length_singleton,
    Nat.zero_add]
  by_cases h : 1 ≤ r.length
  · rw [if_pos (show 2 ≤ r.length + 1 by omega),
      if_pos (show 2 ≤ 1 + r.length by omega)]
    simp
  · rw [if_neg (show ¬ 2 ≤ r.length + 1 by omega),
      if_neg (show ¬ 2 ≤ 1 + r.length by omega)]

theorem dupSpec_one_cons (a b : Nat) (r : List Nat) :
    dupSpec [a] (b :: r) = a :: b :: r := by
  unfold dupSpec
  simp only [List.length_cons, List.length_nil, Nat.zero_add]
  rw [if_pos (show 2 ≤ 1 + (r.length + 1) by omega)]
  simp

theorem detectStep_eq (snapshot : WorkspaceSnapshot)
    (allBooks : List BookReference) (folderIds : List String) (index : Nat)
    (bookRef : BookReference) (tracker : List (String × Nat))
    (flagged : List String) :
    detectStep snapshot allBooks folderIds index bookRef tracker flagged =
      ((mismatchIssuesOf snapshot index bookRef ++
        sheetIssuesOf (matchingByIdOf snapshot bookRef) index bookRef ++
        folderIssuesOf (matchingByIdOf snapshot bookRef) folderIds index bookRef) ++
        (orderResultOf snapshot allBooks (matchingByIdOf snapshot bookRef)
          index bookRef tracker flagged).1,
        (orderResultOf snapshot allBooks (matchingByIdOf snapshot bookRef)
          index bookRef tracker flagged).2) := by
  unfold detectStep
  simp only [List.append_assoc]

theorem orderResultOf_nonFinite (snapshot : WorkspaceSnapshot)
    (allBooks : List BookReference) (mb : Option (LoadedFile BookFile))
    (index : Nat) (bookRef : BookReference) (tracker : List (String × Nat))
    (flagged : List String) (hfin : bookRef.order.isFinite = false) :
    orderResultOf snapshot allBooks mb index bookRef tracker flagged =
      ([nonFiniteIssue mb index bookRef], tracker, flagged) := by
  unfold orderResultOf
  simp only [hfin, if_pos]

theorem orderResultOf_new (snapshot : WorkspaceSnapshot)
    (allBooks : List BookReference) (mb : Option (LoadedFile BookFile))
    (index : Nat) (bookRef : BookReference) (tracker : List (String × Nat))
    (flagged : List String) (hfin : bookRef.order.isFinite = true)
    (hnone : objGet tracker (orderKeyOf bookRef.folderId bookRef.order) = none) :
    orderResultOf snapshot allBooks mb index bookRef tracker flagged =
      ([], objSet tracker (orderKeyOf bookRef.folderId bookRef.order) index,
        flagged) := by
  unfold orderResultOf
  simp only [hfin, Bool.true_eq_false, if_false, reduceIte, hnone]

theorem orderResultOf_dup_flagged (snapshot : WorkspaceSnapshot)
    (allBooks : List BookReference) (mb : Option (LoadedFile BookFile))
    (index : Nat) (bookRef : BookReference) (tracker : List (String × Nat))
    (flagged : List String) (firstIndex : Nat)
    (hfin : bookRef.order.isFinite = true)
    (hsome : objGet tracker (orderKeyOf bookRef.folderId bookRef.order) =
      some firstIndex)
    (hflag : flagged.contains (orderKeyOf bookRef.folderId bookRef.order) = true) :
    orderResultOf snapshot allBooks mb index bookRef tracker flagged =
      ([dupCurrentIssue mb index bookRef], tracker, flagged) := by
  unfold orderResultOf
  simp only [hfin, Bool.true_eq_false, if_false, reduceIte, hsome, hflag,
    if_true, List.nil_append]

theorem orderResultOf_dup_new (snapshot : WorkspaceSnapshot)
    (allBooks : List BookReference) (mb : Option (LoadedFile BookFile))
    (index : Nat) (bookRef : BookReference) (tracker : List (String × Nat))
    (flagged : List String) (firstIndex : Nat)
    (hfin : bookRef.order.isFinite = true)
    (hsome : objGet tracker (orderKeyOf bookRef.folderId bookRef.order) =
      some firstIndex)
    (hflag : flagged.contains (orderKeyOf bookRef.folderId bookRef.order) = false) :
    orderResultOf snapshot allBooks mb index bookRef tracker flagged =
      ([dupFirstIssue snapshot allBooks firstIndex bookRef,
        dupCurrentIssue mb index bookRef], tracker,
        orderKeyOf bookRef.folderId bookRef.order :: flagged) := by
  unfold orderResultOf
  simp only [hfin, Bool.true_eq_false, if_false, reduceIte, hsome, hflag,
    Bool.false_eq_true, List.singleton_append]

theorem dupIdxOf_nonFiniteIssue (k : String) (mb : Option (LoadedFile BookFile))
    (index : Nat) (bookRef : BookReference) :
    dupIdxOf k (nonFiniteIssue mb index bookRef) = none := rfl

theorem nfIdxOf_nonFiniteIssue (mb : Option (LoadedFile BookFile))
    (index : Nat) (bookRef : BookReference) :
    nfIdxOf (nonFiniteIssue mb index bookRef) = some index := rfl

theorem dupIdxOf_dupFirstIssue (k : String) (snapshot : WorkspaceSnapshot)
    (allBooks : List BookReference) (firstIndex : Nat) (bookRef : BookReference) :
    dupIdxOf k (dupFirstIssue snapshot allBooks firstIndex bookRef) =
      if orderKeyOf bookRef.folderId bookRef.order = k then some firstIndex
      else none := rfl

theorem nfIdxOf_dupFirstIssue (snapshot : WorkspaceSnapshot)
    (allBooks : List BookReference) (firstIndex : Nat) (bookRef : BookReference) :
    nfIdxOf (dupFirstIssue snapshot allBooks firstIndex bookRef) = none := rfl

theorem dupIdxOf_dupCurrentIssue (k : String) (mb : Option (LoadedFile BookFile))
    (index : Nat) (bookRef : BookReference) :
    dupIdxOf k (dupCurrentIssue mb index bookRef) =
      if orderKeyOf bookRef.folderId bookRef.order = k then some index
      else none := rfl

theorem nfIdxOf_dupCurrentIssue (mb : Option (LoadedFile BookFile))
    (index : Nat) (bookRef : BookReference) :
    nfIdxOf (dupCurrentIssue mb index bookRef) = none := rfl

theorem dupIndices_append (l1 l2 : List IntegrityIssue) (k : String) :
    dupIndices (l1 ++ l2) k = dupIndices l1 k ++ dupIndices l2 k := by
  unfold dupIndices
  rw [List.filterMap_append]

theorem nfIndices_append (l1 l2 : List IntegrityIssue) :
    nfIndices (l1 ++ l2) = nfIndices l1 ++ nfIndices l2 := by
  unfold nfIndices
  rw [List.filterMap_append]

theorem dupIndices_base (snapshot : WorkspaceSnapshot)
    (mb : Option (LoadedFile BookFile)) (folderIds : List String) (index : Nat)
    (bookRef : BookReference) (k : String) :
    dupIndices (mismatchIssuesOf snapshot index bookRef ++
      sheetIssuesOf mb index bookRef ++
      folderIssuesOf mb folderIds index bookRef) k = [] := by
  unfold dupIndices
  rw [List.filterMap_eq_nil_iff]
  intro issue hmem
  simp only [List.mem_append] at hmem
  apply dupIdxOf_of_type_ne
  rcases hmem with (hm | hs) | hf
  · obtain ⟨mp, _, _, he⟩ := mem_mismatchIssuesOf _ _ _ _ hm
    rw [he]
    exact fun hc => nomatch hc
  · rw [mem_sheetIssuesOf_type _ _ _ _ hs]
    decide
  · rw [mem_folderIssuesOf_type _ _ _ _ _ hf]
    decide

theorem nfIndices_base (snapshot : WorkspaceSnapshot)
    (mb : Option (LoadedFile BookFile)) (folderIds : List String) (index : Nat)
    (bookRef : BookReference) :
    nfIndices (mismatchIssuesOf snapshot index bookRef ++
      sheetIssuesOf mb index bookRef ++
      folderIssuesOf mb folderIds index bookRef) = [] := by
  unfold nfIndices
  rw [List.filterMap_eq_nil_iff]
  intro issue hmem
  simp only [List.mem_append] at hmem
  apply nfIdxOf_of_type_ne
  rcases hmem with (hm | hs) | hf
  · obtain ⟨mp, _, _, he⟩ := mem_mismatchIssuesOf _ _ _ _ hm
    rw [he]
    exact fun hc => nomatch hc
  · rw [mem_sheetIssuesOf_type _ _ _ _ hs]
    decide
  · rw [mem_folderIssuesOf_type _ _ _ _ _ hf]
    decide

theorem keyIndices_cons (i : Nat) (b : BookReference)
    (rest : List (Nat × BookReference)) (k : String) :
    keyIndices ((i, b) :: rest) k =
      if b.order.isFinite = true ∧ orderKeyOf b.folderId b.order = k
      then i :: keyIndices rest k else keyIndices rest k := by
  by_cases hP : b.order.isFinite = true ∧ orderKeyOf b.folderId b.order = k
  · simp only [keyIndices, List.filterMap_cons, if_pos hP]
  · simp only [keyIndices, List.filterMap_cons, if_neg hP]

theorem nonFiniteIndices_cons (i : Nat) (b : BookReference)
    (rest : List (Nat × BookReference)) :
    nonFiniteIndices ((i, b) :: rest) =
      if b.order.isFinite = true then nonFiniteIndices rest
      else i :: nonFiniteIndices rest := by
  by_cases hP : b.order.isFinite = true
  · simp only [nonFiniteIndices, List.filterMap_cons, if_pos hP]
  · simp only [nonFiniteIndices, List.filterMap_cons, if_neg hP]

theorem head_append_of_ne_nil {α : Type} (l1 l2 : List α) (h : ¬ l1 = []) :
    (l1 ++ l2).head? = l1.head? := by
  cases l1 with
  | nil => exact absurd rfl h
  | cons a t => rfl

theorem dupIndices_nil (k : String) : dupIndices [] k = [] := rfl

theorem nfIndices_nil : nfIndices [] = [] := rfl

theorem dupIndices_singleton (x : IntegrityIssue) (k : String) :
    dupIndices [x] k = (dupIdxOf k x).toList := by
  unfold dupIndices
  rw [List.filterMap_cons]
  cases dupIdxOf k x <;> rfl

theorem nfIndices_singleton (x : IntegrityIssue) :
    nfIndices [x] = (nfIdxOf x).toList := by
  unfold nfIndices
  rw [List.filterMap_cons]
  cases nfIdxOf x <;> rfl

theorem dupIndices_pair (x y : IntegrityIssue) (k : String) :
    dupIndices [x, y] k = (dupIdxOf k x).toList ++ (dupIdxOf k y).toList := by
  unfold dupIndices
  rw [List.filterMap_cons, List.filterMap_cons]
  cases dupIdxOf k x <;> cases dupIdxOf k y <;> rfl

theorem nfIndices_pair (x y : IntegrityIssue) :
    nfIndices [x, y] = (nfIdxOf x).toList ++ (nfIdxOf y).toList := by
  unfold nfIndices
  rw [List.filterMap_cons, List.filterMap_cons]
  cases nfIdxOf x <;> cases nfIdxOf y <;> rfl

theorem detectLoop_cons (snapshot : WorkspaceSnapshot)
    (allBooks : List BookReference) (folderIds : List String) (index : Nat)
    (bookRef : BookReference) (rest : List (Nat × BookReference))
    (tracker : List (String × Nat)) (flagged : List String) :
    detectLoop snapshot allBooks folderIds ((index, bookRef) :: rest) tracker
      flagged =
      (detectStep snapshot allBooks folderIds index bookRef tracker flagged).1 ++
      detectLoop snapshot allBooks folderIds rest
        (detectStep snapshot allBooks folderIds index bookRef tracker flagged).2.1
        (detectStep snapshot allBooks folderIds index bookRef tracker
          flagged).2.2 := rfl

theorem detectLoop_order_spec (snapshot : WorkspaceSnapshot)
    (allBooks : List BookReference) (folderIds : List String)
    (rest : List (Nat × BookReference)) :
    ∀ (tracker : List (String × Nat)) (flagged : List String)
      (pk : String → List Nat),
      (∀ k, objGet tracker k = (pk k).head?) →
      (∀ k, flagged.contains k = decide (2 ≤ (pk k).length)) →
      (∀ k,
        dupIndices (detectLoop snapshot allBooks folderIds rest tracker flagged)
          k = dupSpec (pk k) (keyIndices rest k)) ∧
      nfIndices (detectLoop snapshot allBooks folderIds rest tracker flagged) =
        nonFiniteIndices rest := by
  induction rest with
  | nil =>
    intro tracker flagged pk htr hfl
    refine ⟨fun k => ?_, rfl⟩
    rw [show keyIndices [] k = [] from rfl, dupSpec_nil]
    rfl
  | cons p rest ih =>
    obtain ⟨index, bookRef⟩ := p
    intro tracker flagged pk htr hfl
    cases hfin : bookRef.order.isFinite with
    | false =>
      have hstep2 : detectStep snapshot allBooks folderIds index bookRef tracker
          flagged =
          ((mismatchIssuesOf snapshot index bookRef ++
            sheetIssuesOf (matchingByIdOf snapshot bookRef) index bookRef ++
            folderIssuesOf (matchingByIdOf snapshot bookRef) folderIds index
              bookRef) ++
            [nonFiniteIssue (matchingByIdOf snapshot bookRef) index bookRef],
            tracker, flagged) := by
        rw [detectStep_eq, orderResultOf_nonFinite snapshot allBooks
          (matchingByIdOf snapshot bookRef) index bookRef tracker flagged hfin]
      obtain ⟨ihdup, ihnf⟩ := ih tracker flagged pk htr hfl
      refine ⟨fun k => ?_, ?_⟩
      · rw [detectLoop_cons, hstep2, dupIndices_append, dupIndices_append,
          dupIndices_base, dupIndices_singleton, dupIdxOf_nonFiniteIssue,
          ihdup k, keyIndices_cons, if_neg (by rw [hfin]; simp)]
        simp
      · rw [detectLoop_cons, hstep2, nfIndices_append, nfIndices_append,
          nfIndices_base, nfIndices_singleton, nfIdxOf_nonFiniteIssue, ihnf,
          nonFiniteIndices_cons, if_neg (by rw [hfin]; simp)]
        simp
    | true =>
      rcases hget : objGet tracker (orderKeyOf bookRef.folderId bookRef.order)
        with _ | firstIndex
      · -- first occurrence of this (folderId, order) key
        have hpkkey : pk (orderKeyOf bookRef.folderId bookRef.order) = [] := by
          have h1 : (pk (orderKeyOf bookRef.folderId bookRef.order)).head? =
              none := by
            rw [← htr]
            exact hget
          cases hpk : pk (orderKeyOf bookRef.folderId bookRef.order) with
          | nil => rfl
          | cons a t =>
            rw [hpk] at h1
            exact absurd h1 (by simp)
        have htr' : ∀ k,
            objGet (objSet tracker (orderKeyOf bookRef.folderId bookRef.order)
              index) k =
            ((fun k' =>
              if k' = orderKeyOf bookRef.folderId bookRef.order
              then pk k' ++ [index] else pk k') k).head? := by
          intro k
          by_cases hk : k = orderKeyOf bookRef.folderId bookRef.order
          · rw [hk, objGet_objSet_self]
            beta_reduce
            rw [if_pos rfl, hpkkey]
            rfl
          · rw [objGet_objSet_ne _ _ _ _ hk, htr k]
            beta_reduce
            rw [if_neg hk]
        have hfl' : ∀ k,
            flagged.contains k =
            decide (2 ≤ ((fun k' =>
              if k' = orderKeyOf bookRef.folderId bookRef.order
              then pk k' ++ [index] else pk k') k).length) := by
          intro k
          by_cases hk : k = orderKeyOf bookRef.folderId bookRef.order
          · rw [hk, hfl]
            beta_reduce
            rw [if_pos rfl, hpkkey]
            rfl
          · rw [hfl k]
            beta_reduce
            rw [if_neg hk]
        obtain ⟨ihdup, ihnf⟩ := ih
          (objSet tracker (orderKeyOf bookRef.folderId bookRef.order) index)
          flagged _ htr' hfl'
        have hstep2 : detectStep snapshot allBooks folderIds index bookRef
            tracker flagged =
            ((mismatchIssuesOf snapshot index bookRef ++
              sheetIssuesOf (matchingByIdOf snapshot bookRef) index bookRef ++
              folderIssuesOf (matchingByIdOf snapshot bookRef) folderIds index
                bookRef) ++ [],
              objSet tracker (orderKeyOf bookRef.folderId bookRef.order) index,
              flagged) := by
          rw [detectStep_eq, orderResultOf_new snapshot allBooks
            (matchingByIdOf snapshot bookRef) index bookRef tracker flagged hfin
            hget]
        refine ⟨fun k => ?_, ?_⟩
        · rw [detectLoop_cons, hstep2, dupIndices_append, dupIndices_append,
            dupIndices_base, dupIndices_nil, ihdup k, keyIndices_cons]
          by_cases hk : k = orderKeyOf bookRef.folderId bookRef.order
          · rw [hk]
            rw [if_pos (show bookRef.order.isFinite = true ∧
              orderKeyOf bookRef.folderId bookRef.order =
                orderKeyOf bookRef.folderId bookRef.order from ⟨hfin, rfl⟩)]
            rw [if_pos rfl, hpkkey, List.nil_append, List.nil_append,
              List.nil_append, ← dupSpec_nil_cons]
          · rw [if_neg (show ¬ (bookRef.order.isFinite = true ∧
                orderKeyOf bookRef.folderId bookRef.order = k) from
                fun hc => hk hc.2.symm)]
            rw [if_neg hk, List.nil_append, List.nil_append]
        · rw [detectLoop_cons, hstep2, nfIndices_append, nfIndices_append,
            nfIndices_base, nfIndices_nil, ihnf, nonFiniteIndices_cons,
            if_pos hfin]
          simp
      · -- the key has been seen before
        have hheadkey : (pk (orderKeyOf bookRef.folderId bookRef.order)).head? =
            some firstIndex := by
          rw [← htr]
          exact hget
        cases hflag : flagged.contains (orderKeyOf bookRef.folderId
            bookRef.order) with
        | true =>
          -- key already flagged: only the current duplicate issue is emitted
          have h2 : 2 ≤ (pk (orderKeyOf bookRef.folderId bookRef.order)).length :=
            of_decide_eq_true ((hfl _).symm.trans hflag)
          have hne : ¬ pk (orderKeyOf bookRef.folderId bookRef.order) = [] := by
            intro hc
            rw [hc] at h2
            simp at h2
          have htr' : ∀ k,
              objGet tracker k =
              ((fun k' =>
                if k' = orderKeyOf bookRef.folderId bookRef.order
                then pk k' ++ [index] else pk k') k).head? := by
            intro k
            by_cases hk : k = orderKeyOf bookRef.folderId bookRef.order
            · rw [hk, htr]
              beta_reduce
              rw [if_pos rfl, head_append_of_ne_nil _ _ hne]
            · rw [htr k]
              beta_reduce
              rw [if_neg hk]
          have hfl' : ∀ k,
              flagged.contains k =
              decide (2 ≤ ((fun k' =>
                if k' = orderKeyOf bookRef.folderId bookRef.order
                then pk k' ++ [index] else pk k') k).length) := by
            intro k
            by_cases hk : k = orderKeyOf bookRef.folderId bookRef.order
            · rw [hk, hflag]
              beta_reduce
              rw [if_pos rfl]
              symm
              rw [decide_eq_true_eq, List.length_append]
              omega
            · rw [hfl k]
              beta_reduce
              rw [if_neg hk]
          obtain ⟨ihdup, ihnf⟩ := ih tracker flagged _ htr' hfl'
          have hstep2 : detectStep snapshot allBooks folderIds index bookRef
              tracker flagged =
              ((mismatchIssuesOf snapshot index bookRef ++
                sheetIssuesOf (matchingByIdOf snapshot bookRef) index bookRef ++
                folderIssuesOf (matchingByIdOf snapshot bookRef) folderIds index
                  bookRef) ++
                [dupCurrentIssue (matchingByIdOf snapshot bookRef) index bookRef],
                tracker, flagged) := by
            rw [detectStep_eq, orderResultOf_dup_flagged snapshot allBooks
              (matchingByIdOf snapshot bookRef) index bookRef tracker flagged
              firstIndex hfin hget hflag]
          refine ⟨fun k => ?_, ?_⟩
          · rw [detectLoop_cons, hstep2, dupIndices_append, dupIndices_append,
              dupIndices_base, dupIndices_singleton, dupIdxOf_dupCurrentIssue,
              ihdup k, keyIndices_cons]
            by_cases hk : k = orderKeyOf bookRef.folderId bookRef.order
            · rw [hk]
              rw [if_pos rfl, if_pos (show bookRef.order.isFinite = true ∧
                orderKeyOf bookRef.folderId bookRef.order =
                  orderKeyOf bookRef.folderId bookRef.order from ⟨hfin, rfl⟩)]
              rw [if_pos rfl, List.nil_append,
                dupSpec_of_ge2 _ _ (by rw [List.length_append]; omega),
                dupSpec_of_ge2 _ _ h2]
              rfl
            · rw [if_neg (show ¬ orderKeyOf bookRef.folderId bookRef.order = k from
                fun hc => hk hc.symm),
                if_neg (show ¬ (bookRef.order.isFinite = true ∧
                orderKeyOf bookRef.folderId bookRef.order = k) from
                fun hc => hk hc.2.symm)]
              rw [if_neg hk, List.nil_append]
              rfl
          · rw [detectLoop_cons, hstep2, nfIndices_append, nfIndices_append,
              nfIndices_base, nfIndices_singleton, nfIdxOf_dupCurrentIssue,
              ihnf, nonFiniteIndices_cons, if_pos hfin]
            simp
        | false =>
          -- second occurrence: the first reference is flagged retroactively
          have hlt : ¬ 2 ≤ (pk (orderKeyOf bookRef.folderId
              bookRef.order)).length :=
            of_decide_eq_false ((hfl _).symm.trans hflag)
          have hpk1 : pk (orderKeyOf bookRef.folderId bookRef.order) =
              [firstIndex] := by
            cases hpk : pk (orderKeyOf bookRef.folderId bookRef.order) with
            | nil =>
              rw [hpk] at hheadkey
              exact absurd hheadkey (by simp)
            | cons a t =>
              rw [hpk] at hheadkey hlt
              cases t with
              | nil =>
                simp only [List.head?_cons, Option.some.injEq] at hheadkey
                rw [hheadkey]
              | cons b t2 =>
                exfalso
                apply hlt
                simp only [List.length_cons]
                omega
          have htr' : ∀ k,
              objGet tracker k =
              ((fun k' =>
                if k' = orderKeyOf bookRef.folderId bookRef.order
                then pk k' ++ [index] else pk k') k).head? := by
            intro k
            by_cases hk : k = orderKeyOf bookRef.folderId bookRef.order
            · rw [hk, htr]
              beta_reduce
              rw [if_pos rfl, hpk1]
              rfl
            · rw [htr k]
              beta_reduce
              rw [if_neg hk]
          have hfl' : ∀ k,
              (orderKeyOf bookRef.folderId bookRef.order :: flagged).contains k =
              decide (2 ≤ ((fun k' =>
                if k' = orderKeyOf bookRef.folderId bookRef.order
                then pk k' ++ [index] else pk k') k).length) := by
            intro k
            by_cases hk : k = orderKeyOf bookRef.folderId bookRef.order
            · rw [hk]
              beta_reduce
              simp only [List.contains_cons, beq_self_eq_true, Bool.true_or,
                if_true]
              rw [hpk1]
              rfl
            · have hbeq : (k == orderKeyOf bookRef.folderId bookRef.order) =
                  false := by
                rw [beq_eq_false_iff_ne]
                exact hk
              simp only [List.contains_cons, hbeq, Bool.false_or]
              rw [hfl k]
              beta_reduce
              rw [if_neg hk]
          obtain ⟨ihdup, ihnf⟩ := ih tracker
            (orderKeyOf bookRef.folderId bookRef.order :: flagged) _ htr' hfl'
          have hstep2 : detectStep snapshot allBooks folderIds index bookRef
              tracker flagged =
              ((mismatchIssuesOf snapshot index bookRef ++
                sheetIssuesOf (matchingByIdOf snapshot bookRef) index bookRef ++
                folderIssuesOf (matchingByIdOf snapshot bookRef) folderIds index
                  bookRef) ++
                [dupFirstIssue snapshot allBooks firstIndex bookRef,
                 dupCurrentIssue (matchingByIdOf snapshot bookRef) index bookRef],
                tracker,
                orderKeyOf bookRef.folderId bookRef.order :: flagged) := by
            rw [detectStep_eq, orderResultOf_dup_new snapshot allBooks
              (matchingByIdOf snapshot bookRef) index bookRef tracker flagged
              firstIndex hfin hget hflag]
          refine ⟨fun k => ?_, ?_⟩
          · rw [detectLoop_cons, hstep2, dupIndices_append, dupIndices_append,
              dupIndices_base, dupIndices_pair, dupIdxOf_dupFirstIssue,
              dupIdxOf_dupCurrentIssue, ihdup k, keyIndices_cons]
            by_cases hk : k = orderKeyOf bookRef.folderId bookRef.order
            · rw [hk]
              rw [if_pos rfl, if_pos (show bookRef.order.isFinite = true ∧
                orderKeyOf bookRef.folderId bookRef.order =
                  orderKeyOf bookRef.folderId bookRef.order from ⟨hfin, rfl⟩)]
              rw [if_pos rfl, if_pos rfl, hpk1,
                dupSpec_of_ge2 ([firstIndex] ++ [index])
                  (keyIndices rest (orderKeyOf bookRef.folderId bookRef.order))
                  (by simp),
                dupSpec_one_cons]
              simp
            · have hkne : ¬ orderKeyOf bookRef.folderId bookRef.order = k :=
                fun hc => hk hc.symm
              rw [if_neg hkne, if_neg hkne,
                if_neg (show ¬ (bookRef.order.isFinite = true ∧
                orderKeyOf bookRef.folderId bookRef.order = k) from
                fun hc => hk hc.2.symm)]
              rw [if_neg hk]
              simp
          · rw [detectLoop_cons, hstep2, nfIndices_append, nfIndices_append,
              nfIndices_base, nfIndices_pair, nfIdxOf_dupFirstIssue,
              nfIdxOf_dupCurrentIssue, ihnf, nonFiniteIndices_cons,
              if_pos hfin]
            simp

theorem dupSpec_nil_left (r : List Nat) :
    dupSpec [] r = if 2 ≤ r.length then r else [] := by
  unfold dupSpec
  simp

/-- C7: for every snapshot, `detectIntegrityIssues` emits one
non-finite-reason `invalid-order` issue per reference whose `order` is not a
finite number, carrying exactly the positions of those references in order;
and for each `(folderId, order)` tracker key the duplicate-reason
`invalid-order` issues carry exactly the positions of all references of that
key when at least two collide (the first reference retroactively once, plus
every subsequent one) and none otherwise — so three references colliding on
one key yield exactly three duplicate issues, not four. -/
theorem invalid_order_issue_counting (snapshot : WorkspaceSnapshot) :
    (∀ k, dupIndices (detectIntegrityIssues snapshot) k =
      if 2 ≤ (keyIndices snapshot.workspace.data.books.enum k).length
      then keyIndices snapshot.workspace.data.books.enum k else []) ∧
    nfIndices (detectIntegrityIssues snapshot) =
      nonFiniteIndices snapshot.workspace.data.books.enum := by
  obtain ⟨hdup, hnf⟩ := detectLoop_order_spec snapshot
    snapshot.workspace.data.books
    (snapshot.workspace.data.folders.map (fun folder => folder.id))
    snapshot.workspace.data.books.enum [] [] (fun _ => [])
    (fun k => rfl) (fun k => rfl)
  refine ⟨fun k => ?_, hnf⟩
  rw [show detectIntegrityIssues snapshot =
      detectLoop snapshot snapshot.workspace.data.books
        (snapshot.workspace.data.folders.map (fun folder => folder.id))
        snapshot.workspace.data.books.enum [] [] from rfl,
    hdup k, dupSpec_nil_left]

/-! ### Book-order normalisation: sort correctness (C3) -/

theorem orderedInsertB_perm {α : Type} (le : α → α → Bool) (a : α)
    (l : List α) : (orderedInsertB le a l).Perm (a :: l) := by
  induction l with
  | nil => exact List.Perm.refl _
  | cons b l ih =>
    unfold orderedInsertB
    split
    · exact List.Perm.refl _
    · exact ((ih.cons b).trans (List.Perm.swap a b l))

theorem insertionSortB_perm {α : Type} (le : α → α → Bool) (l : List α) :
    (insertionSortB le l).Perm l := by
  induction l with
  | nil => exact List.Perm.refl _
  | cons a l ih =>
    exact (orderedInsertB_perm le a (insertionSortB le l)).trans (ih.cons a)

theorem mem_orderedInsertB {α : Type} (le : α → α → Bool) (a x : α)
    (l : List α) (h : x ∈ orderedInsertB le a l) : x = a ∨ x ∈ l := by
  have := (orderedInsertB_perm le a l).mem_iff.mp h
  simpa using this

theorem orderedInsertB_pairwise {α : Type} (le : α → α → Bool) (P : α → Prop)
    (htot : ∀ a b, P a → P b → le a b = true ∨ le b a = true)
    (htrans : ∀ a b c, P a → P b → P c → le a b = true → le b c = true →
      le a c = true)
    (a : α) (l : List α) (hPa : P a) (hPl : ∀ x ∈ l, P x)
    (hs : l.Pairwise (fun x y => le x y = true)) :
    (orderedInsertB le a l).Pairwise (fun x y => le x y = true) := by
  induction l with
  | nil => simp [orderedInsertB]
  | cons b l ih =>
    rw [List.pairwise_cons] at hs
    obtain ⟨hb, hl⟩ := hs
    unfold orderedInsertB
    split
    · rename_i hab
      refine List.Pairwise.cons ?_ (List.Pairwise.cons hb hl)
      intro y hy
      rcases List.mem_cons.mp hy with hyb | hyl
      · rw [hyb]; exact hab
      · exact htrans a b y hPa (hPl b (by simp)) (hPl y (by simp [hyl])) hab
          (hb y hyl)
    · rename_i hab
      have hba : le b a = true := by
        rcases htot a b hPa (hPl b (by simp)) with h | h
        · exact absurd h hab
        · exact h
      refine List.Pairwise.cons ?_ ?_
      · intro y hy
        rcases mem_orderedInsertB le a y l hy with hya | hyl
        · rw [hya]; exact hba
        · exact hb y hyl
      · exact ih (fun x hx => hPl x (by simp [hx])) hl

theorem insertionSortB_pairwise {α : Type} (le : α → α → Bool) (P : α → Prop)
    (htot : ∀ a b, P a → P b → le a b = true ∨ le b a = true)
    (htrans : ∀ a b c, P a → P b → P c → le a b = true → le b c = true →
      le a c = true)
    (l : List α) (hPl : ∀ x ∈ l, P x) :
    (insertionSortB le l).Pairwise (fun x y => le x y = true) := by
  induction l with
  | nil => simp [insertionSortB]
  | cons a l ih =>
    unfold insertionSortB
    refine orderedInsertB_pairwise le P htot htrans a _ (hPl a (by simp))
      (fun x hx => hPl x (by
        have := (insertionSortB_perm le l).mem_iff.mp hx
        simp [this]))
      (ih (fun x hx => hPl x (by simp [hx])))

theorem findIdx_proj_getElem {α β : Type} [DecidableEq β] (h : α → β) :
    ∀ (s : List α), (s.map h).Nodup → ∀ (i : Nat) (hi : i < s.length),
      s.findIdx (fun q => h q = h s[i]) = i := by
  intro s
  induction s with
  | nil =>
    intro _ i hi
    simp at hi
  | cons a t ih =>
    intro hnd i hi
    rw [List.map_cons, List.nodup_cons] at hnd
    obtain ⟨hna, hnt⟩ := hnd
    cases i with
    | zero =>
      rw [List.findIdx_cons]
      simp
    | succ j =>
      have hj : j < t.length := by simpa using hi
      rw [List.findIdx_cons]
      have hgot : (a :: t)[j + 1] = t[j] := rfl
      rw [hgot]
      have hne : (decide (h a = h t[j])) = false := by
        rw [decide_eq_false_iff_not]
        intro hc
        apply hna
        rw [hc]
        exact List.mem_map_of_mem h (t.getElem_mem hj)
      rw [hne]
      simp only [cond_false]
      rw [ih hnt j hj]

theorem map_findIdx_proj_self {α β : Type} [DecidableEq β] (h : α → β)
    (s : List α) (hnd : (s.map h).Nodup) :
    s.map (fun e => s.findIdx (fun q => h q = h e)) = List.range s.length := by
  apply List.ext_get
  · simp
  · intro n h1 h2
    simp only [List.get_eq_getElem, List.getElem_map, List.getElem_range]
    exact findIdx_proj_getElem h s hnd n (by simpa using h1)

theorem findIdx_lt_of_pairwise_strict {α β : Type} [DecidableEq β] (h : α → β)
    (le : α → α → Bool) (s : List α)
    (hpw : s.Pairwise (fun x y => le x y = true))
    (hnd : (s.map h).Nodup)
    (hrefl : ∀ x, le x x = true)
    (p q : α) (hp : p ∈ s) (hq : q ∈ s) (hqp : le q p = false) :
    s.findIdx (fun x => h x = h p) < s.findIdx (fun x => h x = h q) := by
  obtain ⟨ip, hip⟩ := List.mem_iff_get.mp hp
  obtain ⟨iq, hiq⟩ := List.mem_iff_get.mp hq
  have hfp : s.findIdx (fun x => h x = h p) = ip.val := by
    rw [← hip]
    simp only [List.get_eq_getElem]
    exact findIdx_proj_getElem h s hnd ip.val ip.isLt
  have hfq : s.findIdx (fun x => h x = h q) = iq.val := by
    rw [← hiq]
    simp only [List.get_eq_getElem]
    exact findIdx_proj_getElem h s hnd iq.val iq.isLt
  rw [hfp, hfq]
  rcases Nat.lt_trichotomy ip.val iq.val with h1 | h1 | h1
  · exact h1
  · exfalso
    have hpq : p = q := by
      rw [← hip, ← hiq]
      congr 1
      exact Fin.ext h1
    rw [hpq, hrefl q] at hqp
    cases hqp
  · exfalso
    have hpq := List.pairwise_iff_get.mp hpw iq ip (by exact h1)
    rw [hiq, hip] at hpq
    rw [hpq] at hqp
    cases hqp

theorem charListLt_irrefl : ∀ l : List Char, charListLt l l = false := by
  intro l
  induction l with
  | nil => rfl
  | cons a as ih =>
    unfold charListLt
    rw [if_neg (by omega), if_neg (by omega)]
    exact ih

theorem charListLt_trans : ∀ (a b c : List Char), charListLt a b = true →
    charListLt b c = true → charListLt a c = true := by
  intro a
  induction a with
  | nil =>
    intro b c hab hbc
    cases b with
    | nil => exact hbc
    | cons y bs =>
      cases c with
      | nil => cases hbc
      | cons z cs => rfl
  | cons x as ih =>
    intro b c hab hbc
    cases b with
    | nil => cases hab
    | cons y bs =>
      cases c with
      | nil => cases hbc
      | cons z cs =>
        unfold charListLt at hab hbc ⊢
        by_cases h1 : x.toNat < y.toNat
        · by_cases h2 : y.toNat < z.toNat
          · rw [if_pos (by omega)]
          · rw [if_neg h2] at hbc
            by_cases h3 : z.toNat < y.toNat
            · rw [if_pos h3] at hbc
              cases hbc
            · rw [if_neg h3] at hbc
              rw [if_pos (by omega)]
        · rw [if_neg h1] at hab
          by_cases h4 : y.toNat < x.toNat
          · rw [if_pos h4] at hab
            cases hab
          · rw [if_neg h4] at hab
            by_cases h2 : y.toNat < z.toNat
            · rw [if_pos (by omega)]
            · rw [if_neg h2] at hbc
              by_cases h3 : z.toNat < y.toNat
              · rw [if_pos h3] at hbc
                cases hbc
              · rw [if_neg h3] at hbc
                rw [if_neg (by omega), if_neg (by omega)]
                exact ih bs cs hab hbc

theorem charListLt_eq_of_not : ∀ (a b : List Char), charListLt a b = false →
    charListLt b a = false → a = b := by
  intro a
  induction a with
  | nil =>
    intro b hab _
    cases b with
    | nil => rfl
    | cons y bs => cases hab
  | cons x as ih =>
    intro b hab hba
    cases b with
    | nil => cases hba
    | cons y bs =>
      unfold charListLt at hab hba
      by_cases h1 : x.toNat < y.toNat
      · rw [if_pos h1] at hab
        cases hab
      · by_cases h2 : y.toNat < x.toNat
        · rw [if_pos h2] at hba
          cases hba
        · rw [if_neg h1, if_neg h2] at hab
          rw [if_neg h2, if_neg h1] at hba
          have hxy : x = y := by
            apply Char.ext
            apply UInt32.eq_of_val_eq
            apply Fin.ext
            show x.toNat = y.toNat
            omega
          rw [hxy, ih bs hab hba]

theorem jsStrLt_irrefl (a : String) : jsStrLt a a = false :=
  charListLt_irrefl a.data

theorem jsStrLt_trans (a b c : String) (h1 : jsStrLt a b = true)
    (h2 : jsStrLt b c = true) : jsStrLt a c = true :=
  charListLt_trans a.data b.data c.data h1 h2

theorem jsStrLt_eq_of_not (a b : String) (h1 : jsStrLt a b = false)
    (h2 : jsStrLt b a = false) : a = b :=
  String.ext (charListLt_eq_of_not a.data b.data h1 h2)

theorem annLe_refl (p : BookReference × Nat) : annLe p p = true := by
  unfold annLe
  by_cases h : bookCmpLt p.1 p.1 = true
  · rw [if_pos h]
  · rw [if_neg h, if_neg h]
    simp

theorem annLe_total (p q : BookReference × Nat) :
    annLe p q = true ∨ annLe q p = true := by
  unfold annLe
  by_cases h1 : bookCmpLt p.1 q.1 = true
  · left
    rw [if_pos h1]
  · by_cases h2 : bookCmpLt q.1 p.1 = true
    · right
      rw [if_pos h2]
    · rcases Nat.le_total p.2 q.2 with h | h
      · left
        rw [if_neg h1, if_neg h2]
        simpa using h
      · right
        rw [if_neg h2, if_neg h1]
        simpa using h

theorem bookCmpLt_finite (p q : BookReference) (a b : Int)
    (hp : p.order = JsNum.finite a) (hq : q.order = JsNum.finite b) :
    bookCmpLt p q =
      (decide (a < b) || (decide (a = b) && jsStrLt p.id q.id)) := by
  unfold bookCmpLt
  rw [hp, hq]
  by_cases hab : a = b
  · subst hab
    simp [JsNum.strictEq, JsNum.subLtZero]
  · simp [JsNum.strictEq, JsNum.subLtZero, hab]

theorem annLe_iff_finite (p q : BookReference × Nat) (a b : Int)
    (hp : p.1.order = JsNum.finite a) (hq : q.1.order = JsNum.finite b) :
    annLe p q = true ↔
      (a < b ∨ (a = b ∧ jsStrLt p.1.id q.1.id = true) ∨
        (a = b ∧ p.1.id = q.1.id ∧ p.2 ≤ q.2)) := by
  unfold annLe
  rw [bookCmpLt_finite p.1 q.1 a b hp hq, bookCmpLt_finite q.1 p.1 b a hq hp]
  by_cases h1 : a < b
  · simp [h1]
  · by_cases h2 : a = b
    · subst h2
      by_cases h3 : jsStrLt p.1.id q.1.id = true
      · simp [h3, lt_irrefl]
      · by_cases h4 : jsStrLt q.1.id p.1.id = true
        · have hne : ¬ p.1.id = q.1.id := by
            intro hc
            rw [hc, jsStrLt_irrefl] at h4
            cases h4
          simp [h3, h4, hne, lt_irrefl]
        · have h5 : p.1.id = q.1.id :=
            jsStrLt_eq_of_not _ _
              (Bool.not_eq_true _ ▸ h3 : jsStrLt p.1.id q.1.id = false)
              (Bool.not_eq_true _ ▸ h4 : jsStrLt q.1.id p.1.id = false)
          simp [h3, h4, h5, lt_irrefl, jsStrLt_irrefl]
    · have h3 : b < a := by omega
      simp [h1, h2, h3]

theorem annLe_trans_finite (p q r : BookReference × Nat)
    (hp : p.1.order.isFinite = true) (hq : q.1.order.isFinite = true)
    (hr : r.1.order.isFinite = true)
    (hpq : annLe p q = true) (hqr : annLe q r = true) : annLe p r = true := by
  obtain ⟨a, ha⟩ : ∃ a, p.1.order = JsNum.finite a := by
    cases hv : p.1.order <;> simp [hv, JsNum.isFinite] at hp ⊢
  obtain ⟨b, hb⟩ : ∃ b, q.1.order = JsNum.finite b := by
    cases hv : q.1.order <;> simp [hv, JsNum.isFinite] at hq ⊢
  obtain ⟨c, hc⟩ : ∃ c, r.1.order = JsNum.finite c := by
    cases hv : r.1.order <;> simp [hv, JsNum.isFinite] at hr ⊢
  rw [annLe_iff_finite p q a b ha hb] at hpq
  rw [annLe_iff_finite q r b c hb hc] at hqr
  rw [annLe_iff_finite p r a c ha hc]
  rcases hpq with h1 | ⟨h1, h2⟩ | ⟨h1, h2, h3⟩ <;>
    rcases hqr with g1 | ⟨g1, g2⟩ | ⟨g1, g2, g3⟩
  · exact Or.inl (by omega)
  · exact Or.inl (by omega)
  · exact Or.inl (by omega)
  · exact Or.inl (by omega)
  · exact Or.inr (Or.inl ⟨by omega, jsStrLt_trans _ _ _ h2 g2⟩)
  · exact Or.inr (Or.inl ⟨by omega, g2 ▸ h2⟩)
  · exact Or.inl (by omega)
  · exact Or.inr (Or.inl ⟨by omega, h2 ▸ g2⟩)
  · exact Or.inr (Or.inr ⟨by omega, h2.trans g2, Nat.le_trans h3 g3⟩)

/-- The sibling group that `normalizeBookOrders` builds for folder key `f`:
the annotated `(reference, original position)` pairs whose `folderId ?? null`
equals `f`. -/
def bookGroup (books : List BookReference) (f : Option String) :
    List (BookReference × Nat) :=
  (books.enum.map (fun p => (p.2, p.1))).filter (fun q => q.1.folderId = f)

theorem normalizeBookOrders_getElem? (books : List BookReference) (i : Nat)
    (bi : BookReference) (hi : books[i]? = some bi) :
    (normalizeBookOrders books)[i]? = some
      { bi with order := JsNum.finite (Int.ofNat
          ((insertionSortB annLe (bookGroup books bi.folderId)).findIdx
            (fun q => q.2 = i))) } := by
  unfold normalizeBookOrders bookGroup
  rw [List.getElem?_map, List.getElem?_enum, hi]
  rfl

theorem mem_bookGroup (books : List BookReference) (f : Option String)
    (i : Nat) (bi : BookReference) (hi : books[i]? = some bi)
    (hf : bi.folderId = f) : (bi, i) ∈ bookGroup books f := by
  unfold bookGroup
  rw [List.mem_filter]
  refine ⟨?_, by simp [hf]⟩
  exact List.mem_map_of_mem _ (List.mk_mem_enum_iff_getElem?.mpr hi)

theorem bookGroup_snd_nodup (books : List BookReference) (f : Option String) :
    ((bookGroup books f).map Prod.snd).Nodup := by
  have h1 : (bookGroup books f).Sublist
      (books.enum.map (fun p => (p.2, p.1))) := List.filter_sublist _
  have h2 := h1.map Prod.snd
  rw [List.map_map] at h2
  have h3 : books.enum.map
      (Prod.snd ∘ fun p : Nat × BookReference => (p.2, p.1)) =
      List.range books.length := List.enum_map_fst books
  rw [h3] at h2
  exact h2.nodup (List.nodup_range _)

theorem sorted_bookGroup_snd_nodup (books : List BookReference)
    (f : Option String) :
    ((insertionSortB annLe (bookGroup books f)).map Prod.snd).Nodup :=
  (((insertionSortB_perm annLe (bookGroup books f)).symm).map Prod.snd).nodup
    (bookGroup_snd_nodup books f)

theorem normalize_rank_lt (books : List BookReference) (f : Option String)
    (hfin : ∀ q ∈ bookGroup books f, q.1.order.isFinite = true)
    (i j : Nat) (bi bj : BookReference)
    (hi : books[i]? = some bi) (hj : books[j]? = some bj)
    (hfi : bi.folderId = f) (hfj : bj.folderId = f)
    (hstrict : annLe (bj, j) (bi, i) = false) :
    (insertionSortB annLe (bookGroup books f)).findIdx (fun q => q.2 = i) <
    (insertionSortB annLe (bookGroup books f)).findIdx (fun q => q.2 = j) := by
  have hpw := insertionSortB_pairwise annLe
    (fun x => x.1.order.isFinite = true)
    (fun a b _ _ => annLe_total a b)
    annLe_trans_finite
    (bookGroup books f) hfin
  have hperm := insertionSortB_perm annLe (bookGroup books f)
  have hp : (bi, i) ∈ insertionSortB annLe (bookGroup books f) :=
    hperm.symm.subset (mem_bookGroup books f i bi hi hfi)
  have hq : (bj, j) ∈ insertionSortB annLe (bookGroup books f) :=
    hperm.symm.subset (mem_bookGroup books f j bj hj hfj)
  exact findIdx_lt_of_pairwise_strict Prod.snd annLe _ hpw
    (sorted_bookGroup_snd_nodup books f) annLe_refl (bi, i) (bj, j) hp hq
    hstrict

/-- The per-reference body of the `normalizeBookOrders` map. -/
def normOne (books : List BookReference) (p : Nat × BookReference) :
    BookReference :=
  { p.2 with order := JsNum.finite (Int.ofNat
      ((insertionSortB annLe (bookGroup books p.2.folderId)).findIdx
        (fun q => q.2 = p.1))) }

theorem normalizeBookOrders_eq_map (books : List BookReference) :
    normalizeBookOrders books = books.enum.map (normOne books) := rfl

theorem normalize_filter_map_aux (books : List BookReference)
    (f : Option String) :
    ∀ l : List (Nat × BookReference),
      ((l.map (normOne books)).filter (fun b => b.folderId = f)).map
        (fun b => b.order) =
      (l.filter (fun p => p.2.folderId = f)).map (fun p =>
        JsNum.finite (Int.ofNat
          ((insertionSortB annLe (bookGroup books f)).findIdx
            (fun q => q.2 = p.1)))) := by
  intro l
  induction l with
  | nil => rfl
  | cons p l ih =>
    by_cases hp : p.2.folderId = f
    · simp [normOne, hp, ih]
    · simp [normOne, hp, ih]

theorem bookGroup_eq_map_filter (books : List BookReference)
    (f : Option String) :
    bookGroup books f =
      (books.enum.filter (fun p => p.2.folderId = f)).map
        (fun p => (p.2, p.1)) := by
  unfold bookGroup
  rw [List.filter_map]
  exact congrArg _ (List.filter_congr (fun a _ => rfl))

theorem map_rank_perm_range (s : List (BookReference × Nat)) (P : List Nat)
    (hperm : (s.map Prod.snd).Perm P) (hnd : (s.map Prod.snd).Nodup) :
    (P.map (fun i => JsNum.finite (Int.ofNat
      (s.findIdx (fun q => q.2 = i))))).Perm
    ((List.range s.length).map (fun r => JsNum.finite (Int.ofNat r))) := by
  have h1 := hperm.map (fun i => JsNum.finite (Int.ofNat
    (s.findIdx (fun q => q.2 = i))))
  have h2 : (s.map Prod.snd).map (fun i => JsNum.finite (Int.ofNat
      (s.findIdx (fun q => q.2 = i)))) =
      (List.range s.length).map (fun r => JsNum.finite (Int.ofNat r)) := by
    rw [List.map_map]
    calc s.map ((fun i => JsNum.finite (Int.ofNat
            (s.findIdx (fun q => q.2 = i)))) ∘ Prod.snd)
        = (s.map (fun e => s.findIdx (fun q => q.2 = e.2))).map
            (fun r => JsNum.finite (Int.ofNat r)) := by
          rw [List.map_map]
          rfl
      _ = (List.range s.length).map (fun r => JsNum.finite (Int.ofNat r)) := by
          rw [map_findIdx_proj_self Prod.snd s hnd]
  rw [← h2]
  exact h1.symm

theorem normalize_orders_perm (books : List BookReference) (f : Option String) :
    (((normalizeBookOrders books).filter (fun b => b.folderId = f)).map
      (fun b => b.order)).Perm
    ((List.range (bookGroup books f).length).map
      (fun r => JsNum.finite (Int.ofNat r))) := by
  rw [normalizeBookOrders_eq_map, normalize_filter_map_aux books f books.enum]
  have hsnd : (bookGroup books f).map Prod.snd =
      (books.enum.filter (fun p => p.2.folderId = f)).map (fun p => p.1) := by
    rw [bookGroup_eq_map_filter, List.map_map]
    rfl
  have hfuse : (books.enum.filter (fun p => p.2.folderId = f)).map (fun p =>
        JsNum.finite (Int.ofNat
          ((insertionSortB annLe (bookGroup books f)).findIdx
            (fun q => q.2 = p.1)))) =
      ((books.enum.filter (fun p => p.2.folderId = f)).map (fun p => p.1)).map
        (fun i => JsNum.finite (Int.ofNat
          ((insertionSortB annLe (bookGroup books f)).findIdx
            (fun q => q.2 = i)))) := by
    rw [List.map_map]
    rfl
  rw [hfuse]
  have hlen : (bookGroup books f).length =
      (insertionSortB annLe (bookGroup books f)).length :=
    ((insertionSortB_perm annLe (bookGroup books f)).length_eq).symm
  rw [hlen]
  apply map_rank_perm_range
  · exact ((insertionSortB_perm annLe (bookGroup books f)).map Prod.snd).trans
      (by rw [hsnd])
  · exact sorted_bookGroup_snd_nodup books f

/-- C3: `normalizeBookOrders` (the normalize-decision pass of repair) assigns
to every sibling group (same `folderId ?? null` key) the orders `0..n-1`
with no gaps or repeats, as a permutation fact over the group's new order
values; and — provided every order in the group is a finite number —
references with strictly-equal original order are ranked by ascending
lexicographic id, and a reference whose original order is strictly smaller
keeps a strictly smaller normalized order.  The finiteness proviso is the
correction: with a `NaN` order in the group the comparator is inconsistent
and the tie-by-id sentence fails (see the counterexample). -/
theorem normalize_book_orders_spec (books : List BookReference)
    (f : Option String) :
    (((normalizeBookOrders books).filter (fun b => b.folderId = f)).map
        (fun b => b.order)).Perm
      ((List.range (bookGroup books f).length).map
        (fun r => JsNum.finite (Int.ofNat r))) ∧
    (∀ (i j : Nat) (bi bj ri rj : BookReference),
      (∀ q ∈ bookGroup books f, q.1.order.isFinite = true) →
      books[i]? = some bi → books[j]? = some bj →
      bi.folderId = f → bj.folderId = f →
      (normalizeBookOrders books)[i]? = some ri →
      (normalizeBookOrders books)[j]? = some rj →
      (JsNum.strictEq bi.order bj.order = true → jsStrLt bi.id bj.id = true →
        JsNum.subLtZero ri.order rj.order = true) ∧
      (JsNum.subLtZero bi.order bj.order = true →
        JsNum.subLtZero ri.order rj.order = true)) := by
  refine ⟨normalize_orders_perm books f, ?_⟩
  intro i j bi bj ri rj hfin hi hj hfi hfj hri hrj
  have hri2 := normalizeBookOrders_getElem? books i bi hi
  rw [hri] at hri2
  have hriv := Option.some.inj hri2
  have hrj2 := normalizeBookOrders_getElem? books j bj hj
  rw [hrj] at hrj2
  have hrjv := Option.some.inj hrj2
  have hmi : (bi, i) ∈ bookGroup books f := mem_bookGroup books f i bi hi hfi
  have hmj : (bj, j) ∈ bookGroup books f := mem_bookGroup books f j bj hj hfj
  have hfbi := hfin _ hmi
  have hfbj := hfin _ hmj
  obtain ⟨a, ha⟩ : ∃ a, bi.order = JsNum.finite a := by
    cases hv : bi.order <;> simp [hv, JsNum.isFinite] at hfbi ⊢
  obtain ⟨b, hb⟩ : ∃ b, bj.order = JsNum.finite b := by
    cases hv : bj.order <;> simp [hv, JsNum.isFinite] at hfbj ⊢
  have hrank : annLe (bj, j) (bi, i) = false →
      JsNum.subLtZero ri.order rj.order = true := by
    intro hstrict
    have hlt := normalize_rank_lt books f hfin i j bi bj hi hj hfi hfj hstrict
    rw [hriv, hrjv, hfi, hfj]
    simp [JsNum.subLtZero]
    exact_mod_cast hlt
  constructor
  · intro hse hids
    apply hrank
    have hab : a = b := by
      rw [ha, hb] at hse
      simpa [JsNum.strictEq] using hse
    have hne : ¬ annLe (bj, j) (bi, i) = true := by
      rw [annLe_iff_finite (bj, j) (bi, i) b a hb ha]
      rintro (h | ⟨_, h⟩ | ⟨_, h, _⟩)
      · omega
      · have hcon := jsStrLt_trans _ _ _ hids h
        rw [jsStrLt_irrefl] at hcon
        cases hcon
      · rw [h] at hids
        rw [jsStrLt_irrefl] at hids
        cases hids
    exact Bool.eq_false_iff.mpr hne
  · intro hlt
    apply hrank
    have hab : a < b := by
      rw [ha, hb] at hlt
      simpa [JsNum.subLtZero] using hlt
    have hne : ¬ annLe (bj, j) (bi, i) = true := by
      rw [annLe_iff_finite (bj, j) (bi, i) b a hb ha]
      rintro (h | ⟨h, _⟩ | ⟨h, _, _⟩) <;> omega
    exact Bool.eq_false_iff.mpr hne

/-- Reference `b`, `order` 5. -/
def c3RefB : BookReference :=
  ⟨"b", "b", none, JsNum.finite 5, "books/b.json", none, none, "t", "t"⟩

/-- Reference `c`, `order` `NaN`. -/
def c3RefC : BookReference :=
  ⟨"c", "c", none, JsNum.nan, "books/c.json", none, none, "t", "t"⟩

/-- Reference `a`, `order` 5. -/
def c3RefA : BookReference :=
  ⟨"a", "a", none, JsNum.finite 5, "books/a.json", none, none, "t", "t"⟩

/-- A root-folder sibling group with a `NaN` order between two references
tied at `order` 5. -/
def c3Books : List BookReference := [c3RefB, c3RefC, c3RefA]

/-- C3 counterexample: in the group `[b(5), c(NaN), a(5)]` the references
`b` and `a` have strictly-equal original order and `a` has the smaller id,
yet normalization assigns `b` order 0 and `a` order 2 — the `NaN` comparator
results (coerced to `+0` by the sort) freeze the original positions, so
equal-order references are NOT ranked by ascending id. -/
theorem normalize_tie_by_id_counterexample :
    JsNum.strictEq c3RefB.order c3RefA.order = true ∧
    jsStrLt c3RefA.id c3RefB.id = true ∧
    c3RefA.folderId = c3RefB.folderId ∧
    c3Books[0]? = some c3RefB ∧ c3Books[2]? = some c3RefA ∧
    (normalizeBookOrders c3Books).map (fun b => b.order) =
      [JsNum.finite 0, JsNum.finite 1, JsNum.finite 2] := by
  decide

/-- Reference `z`, `order` 3. -/
def c3RefZ : BookReference :=
  ⟨"z", "z", none, JsNum.finite 3, "books/z.json", none, none, "t", "t"⟩

/-- An all-finite sibling group: `b` and `a` tie at `order` 5, `z` is 3. -/
def c3wBooks : List BookReference := [c3RefB, c3RefA, c3RefZ]

/-- Normalized reference `a`: rank 1 (after `z`, before `b` by id). -/
def c3wRa : BookReference :=
  ⟨"a", "a", none, JsNum.finite 1, "books/a.json", none, none, "t", "t"⟩

/-- Normalized reference `b`: rank 2. -/
def c3wRb : BookReference :=
  ⟨"b", "b", none, JsNum.finite 2, "books/b.json", none, none, "t", "t"⟩

/-- Witness for C3 on the all-finite group `[b(5), a(5), z(3)]`: the ids
break the 5–5 tie, ranking `a` strictly before `b`. -/
theorem normalize_book_orders_spec_witness :
    (∀ q ∈ bookGroup c3wBooks none, q.1.order.isFinite = true) ∧
    JsNum.subLtZero (JsNum.finite 1) (JsNum.finite 2) = true :=
  ⟨by decide,
    ((normalize_book_orders_spec c3wBooks none).2 1 0 c3RefA c3RefB c3wRa c3wRb
      (by decide) (by decide) (by decide) rfl rfl (by decide) (by decide)).1
      (by decide) (by decide)⟩
